import Mathlib

/-!
Verification development for the LinkedIn lead-intelligence pipeline
(`main.py`, `apify_client_wrapper.py`, `scorer.py`, `models.py`).

The Python sources are shallowly embedded: pure helpers become Lean
functions, the two background workflows (`_run_phase1`, `_run_phase2`)
become functions from an abstracted external-call outcome and the current
job record to the list of successive `job["phase"]` assignments together
with the final job record, and Python exceptions become `Except`.
-/

namespace LinkedInLead

/- ═══════════════ §1 Python string primitives ═══════════════ -/

/-- Python whitespace (`str.strip` / regex `\s`, ASCII range). -/
def pySpace (c : Char) : Bool :=
  c = ' ' || c = '\t' || c = '\n' || c = '\r' || c = '\x0b' || c = '\x0c'

/-- `str.strip()` on a character list. -/
def pyStripList (l : List Char) : List Char :=
  ((l.dropWhile pySpace).reverse.dropWhile pySpace).reverse

/-- Python `s.strip()`. -/
def pyStrip (s : String) : String := String.mk (pyStripList s.data)

/-- Python `s.lower()` (ASCII). -/
def pyLower (s : String) : String := String.mk (s.data.map Char.toLower)

/-- Python word character, for the regex `\b` boundary (ASCII range). -/
def pyWordChar (c : Char) : Bool := c.isAlphanum || c = '_'

/-- Python substring test `needle in hay`. -/
def pyInStr (needle hay : String) : Bool :=
  hay.data.tails.any (fun t => needle.data.isPrefixOf t)

/- ═══════════════ §2 Canonical records ═══════════════ -/

/-- One post record as produced by `scrape_posts` (only the fields the
    orchestrator stores; the orchestrator never inspects post contents). -/
structure Post where
  text : String := ""
  date : String := ""
  likes : Int := 0
  comments : Int := 0
  reposts : Int := 0
  post_url : String := ""
deriving DecidableEq

/-- The analysis record shape produced by `scorer.analyze_profile` and by
    the degraded fallback in `_run_phase2` (cf. `ProfileAnalysis` in
    `models.py`). -/
structure Analysis where
  relevance_score : Int := 0
  activity_level : String := ""
  key_topics : List String := []
  areas_of_interest : List String := []
  recent_activity_summary : String := ""
  engagement_metrics : String := ""
  recommendation : String := ""
  reasoning : String := ""
deriving DecidableEq

/-- A normalized profile as produced by `_parse_profile` (string leaves; the
    JSON-level normalizer with raw provider values is modelled in §6), plus
    the two fields `_run_phase2` attaches afterwards. -/
structure Profile where
  first_name : String := ""
  last_name : String := ""
  name : String := ""
  headline : String := ""
  job_title : String := ""
  company : String := ""
  company_url : String := ""
  about : String := ""
  skills : String := ""
  linkedin_url : String := ""
  email : String := ""
  country : String := ""
  city : String := ""
  location_text : String := ""
  connections : Int := 0
  followers : Int := 0
  is_hiring : Bool := false
  is_open_to_work : Bool := false
  is_premium : Bool := false
  photo : String := ""
  experience_summary : String := ""
  education_summary : String := ""
  certifications_summary : String := ""
  posts : List Post := []
  analysis : Option Analysis := none
deriving DecidableEq

/- ═══════════════ §3 Result collection (dedup by URL) ═══════════════ -/

/-- The dataset-collection loop of `scrape_profiles_advanced`
    (`apify_client_wrapper.py` lines 212-224), over the already-normalized
    profiles in arrival order: a profile whose non-empty `linkedin_url` was
    already seen is skipped; otherwise its URL (when non-empty) is recorded
    and the profile kept.  `seen` models the Python `set` as the list of
    recorded URLs. -/
def collectDedup : List String → List Profile → List Profile
  | _, [] => []
  | seen, p :: rest =>
    if p.linkedin_url != "" && seen.contains p.linkedin_url then
      collectDedup seen rest
    else if p.linkedin_url != "" then
      p :: collectDedup (p.linkedin_url :: seen) rest
    else
      p :: collectDedup seen rest

/-- The results list returned by `scrape_profiles_advanced`, as a function
    of the normalized profiles in provider arrival order. -/
def scrapeProfilesResults (parsed : List Profile) : List Profile :=
  collectDedup [] parsed

/- ═══════════════ §4 Local NOT-filter ═══════════════ -/

/-- Try to match `NOT\s+(\S+)` (case-insensitive) at the head of the input;
    the caller has already checked the `\b` boundary.  Returns the captured
    term and the rest of the input after the match. -/
def matchNotTerm : List Char → Option (List Char × List Char)
  | c1 :: c2 :: c3 :: rest =>
    if (c1 = 'N' || c1 = 'n') && (c2 = 'O' || c2 = 'o') && (c3 = 'T' || c3 = 't') then
      match rest with
      | [] => none
      | d :: _ =>
        if pySpace d then
          let afterSpaces := rest.dropWhile pySpace
          let term := afterSpaces.takeWhile (fun c => !pySpace c)
          match term with
          | [] => none
          | _ => some (term, afterSpaces.dropWhile (fun c => !pySpace c))
        else none
    else none
  | _ => none

/-- Scanner for `re.findall(r"\bNOT\s+(\S+)", query, re.IGNORECASE)`:
    left-to-right, non-overlapping; `prevWord` tracks whether the preceding
    character is a word character (the `\b` boundary), and scanning resumes
    past each match.  `fuel` bounds the recursion; every step consumes at
    least one input character, so `input.length` is always enough. -/
def scanNotTerms : Nat → Bool → List Char → List (List Char)
  | 0, _, _ => []
  | _ + 1, _, [] => []
  | fuel + 1, prevWord, c :: rest =>
    if prevWord then scanNotTerms fuel (pyWordChar c) rest
    else
      match matchNotTerm (c :: rest) with
      | some (term, after) =>
        term :: scanNotTerms fuel (pyWordChar (term.getLastD ' ')) after
      | none => scanNotTerms fuel (pyWordChar c) rest

/-- `not_terms = re.findall(r"\bNOT\s+(\S+)", query, re.IGNORECASE)`. -/
def notTermsRaw (q : String) : List String :=
  (scanNotTerms q.data.length false q.data).map String.mk

/-- `not_match = [t.lower() for t in not_terms]`. -/
def notMatchTerms (q : String) : List String := (notTermsRaw q).map pyLower

/-- The searchable text of one profile inside `filter_profiles`:
    `' '.join([name, headline, company, about, skills, job_title]).lower()`. -/
def profileBlob (p : Profile) : String :=
  pyLower (String.intercalate " "
    [p.name, p.headline, p.company, p.about, p.skills, p.job_title])

/-- `filter_profiles` (`apify_client_wrapper.py` lines 233-270): apply only
    the NOT exclusions extracted from the query; with an empty stripped
    query or no extracted terms the input list object is returned as is. -/
def filter_profiles (profiles : List Profile) (search_query : String) : List Profile :=
  let query := pyStrip search_query
  if query = "" then profiles
  else
    let not_match := notMatchTerms query
    if not_match.isEmpty then profiles
    else
      profiles.filter (fun profile =>
        !(not_match.any (fun term => pyInStr term (profileBlob profile))))

/- ═══════════════ §5 Job orchestrator ═══════════════ -/

/-- The job phase enumeration (the string values of `job["phase"]`). -/
inductive Phase where
  | starting
  | scraping
  | filtering
  | awaiting_selection
  | scraping_posts
  | analyzing
  | complete
  | error
deriving DecidableEq

/-- Position of a phase in the pipeline order; `error` sits past
    `complete` so that a strictly increasing trace can end in either. -/
def phaseIdx : Phase → Nat
  | .starting => 0
  | .scraping => 1
  | .filtering => 2
  | .awaiting_selection => 3
  | .scraping_posts => 4
  | .analyzing => 5
  | .complete => 6
  | .error => 7

/-- The non-error pipeline order of the spec. -/
def canonicalPhases : List Phase :=
  [.starting, .scraping, .filtering, .awaiting_selection,
   .scraping_posts, .analyzing, .complete]

/-- The per-job state dictionary created by `start_search`
    (`main.py` lines 181-197).  `search_params_query` is the raw
    `params["searchQuery"]` (never stripped in place), `search_query` the
    stripped copy stored beside it. -/
structure Job where
  phase : Phase := .starting
  search_query : String := ""
  search_params_query : String := ""
  search_max_items : Int := 50
  profiles_found : Nat := 0
  profiles_filtered : Nat := 0
  profiles_with_email : List Profile := []
  profiles_without_email : List Profile := []
  posts_total : Nat := 0
  posts_scraped : Nat := 0
  analyzed_total : Nat := 0
  analyzed_count : Nat := 0
  analyzed_profiles : List Profile := []
  current_profile_name : String := ""
  error : String := ""
  scrape_status : String := ""
deriving DecidableEq

/-- The fresh job record `start_search` stores (all counters zero, all
    collections empty, phase `starting`). -/
def initJob (raw_query : String) (max_items : Int) : Job :=
  { phase := .starting
    search_query := pyStrip raw_query
    search_params_query := raw_query
    search_max_items := max_items }

/-- `start_search` (`main.py` lines 167-202): reject an empty stripped
    query synchronously; otherwise overwrite `params["maxItems"]` with
    `max(int(params.get("maxItems", 50)), 50)` and create the job.  The
    `maxItems` argument is the client value after `int` coercion, `none`
    when absent. -/
def start_search (searchQuery : String) (maxItems : Option Int) : Option Job :=
  if pyStrip searchQuery = "" then none
  else some (initJob searchQuery (max (maxItems.getD 50) 50))

/-- Outcome of the one `scrape_profiles_advanced` call inside
    `_run_phase1`: the normalized, deduplicated profile list, or the
    message of the exception it raised. -/
inductive ScrapeOutcome where
  | ok (raw_profiles : List Profile)
  | fail (msg : String)

/-- The error message when the raw set was non-empty but the NOT filter
    excluded everything (`main.py` lines 74-77). -/
def allExcludedMsg (rawCount : Nat) : String :=
  "LinkedIn returned " ++ toString rawCount ++
    " profiles but all were excluded by your NOT filters. " ++
    "Try removing the NOT terms or broadening your query."

/-- The error message when the provider returned nothing at all
    (`main.py` line 78). -/
def noResultsMsg : String :=
  "No profiles found for this search. Try a different query or fewer filters."

/-- `_run_phase1` (`main.py` lines 45-88) with the provider call abstracted
    as `outcome`.  Returns the successive values written to `job["phase"]`
    and the job state when the background thread returns.  (The progress
    callback only bumps `profiles_found` / `scrape_status` while scraping;
    its final values are reflected in the returned state.) -/
def _run_phase1 (outcome : ScrapeOutcome) (job : Job) : List Phase × Job :=
  let j1 := { job with phase := Phase.scraping, scrape_status := "running_actor" }
  match outcome with
  | .fail msg =>
    ([Phase.scraping, Phase.error],
     { j1 with phase := Phase.error, error := "Profile search failed: " ++ msg })
  | .ok raw_profiles =>
    let j2 := { j1 with profiles_found := raw_profiles.length,
                        scrape_status := "done", phase := Phase.filtering }
    let filtered := filter_profiles raw_profiles j2.search_params_query
    let j3 := { j2 with profiles_filtered := filtered.length }
    if filtered.isEmpty then
      ([Phase.scraping, Phase.filtering, Phase.error],
       { j3 with phase := Phase.error,
                 error := if raw_profiles.length > 0 then
                            allExcludedMsg raw_profiles.length
                          else noResultsMsg })
    else
      ([Phase.scraping, Phase.filtering, Phase.awaiting_selection],
       { j3 with profiles_with_email := filtered.filter (fun p => p.email != "")
                 profiles_without_email := filtered.filter (fun p => p.email == "")
                 phase := Phase.awaiting_selection })

/-- The two external calls `_run_phase2` makes per profile, abstracted:
    `scrape_posts` on the profile's URL and `analyze_profile` on the
    profile (which then already carries its posts) — an `Except.error`
    models the call raising. -/
structure Phase2Env where
  scrape_posts : Profile → Except String (List Post)
  analyze_profile : Profile → Except String Analysis

/-- A concrete environment where both external calls always succeed
    trivially (used to instantiate executions at concrete inputs). -/
def trivialEnv : Phase2Env :=
  { scrape_posts := fun _ => Except.ok []
    analyze_profile := fun _ => Except.ok {} }

/-- Lines 113-118 of `main.py`: attach the scraped posts, or an empty list
    when the per-profile call raised. -/
def attachPosts (env : Phase2Env) (p : Profile) : Profile :=
  match env.scrape_posts p with
  | .ok posts => { p with posts := posts }
  | .error _ => { p with posts := [] }

/-- One iteration of the posts loop (`main.py` lines 111-119): update
    `current_profile_name`, attach the posts, bump `posts_scraped`. -/
def postsStep (env : Phase2Env) (acc : Job × List Profile) (p : Profile) :
    Job × List Profile :=
  let j := { acc.1 with current_profile_name := p.name }
  ({ j with posts_scraped := j.posts_scraped + 1 }, acc.2 ++ [attachPosts env p])

/-- The fixed degraded analysis substituted when `analyze_profile` raises
    (`main.py` lines 141-150). -/
def degradedAnalysis (msg : String) : Analysis :=
  { relevance_score := 0
    activity_level := "Unknown"
    key_topics := []
    areas_of_interest := []
    recent_activity_summary := "Analysis failed."
    engagement_metrics := ""
    recommendation := ""
    reasoning := "Error: " ++ msg }

/-- Lines 132-150 of `main.py`: attach the analysis result, or the
    degraded record when the call raised. -/
def attachAnalysis (env : Phase2Env) (p : Profile) : Profile :=
  match env.analyze_profile p with
  | .ok a => { p with analysis := some a }
  | .error msg => { p with analysis := some (degradedAnalysis msg) }

/-- One iteration of the analysis loop (`main.py` lines 130-153). -/
def analyzeStep (env : Phase2Env) (j : Job) (p : Profile) : Job :=
  let j1 := { j with current_profile_name := p.name }
  { j1 with analyzed_profiles := j1.analyzed_profiles ++ [attachAnalysis env p]
            analyzed_count := j1.analyzed_count + 1 }

/-- The sort key `x.get("analysis", {}).get("relevance_score", 0)`. -/
def relevanceScore (p : Profile) : Int :=
  match p.analysis with
  | some a => a.relevance_score
  | none => 0

/-- Stable insertion for the descending sort: `x` is placed in front of the
    first element whose score does not exceed `x`'s, so later equal-score
    elements stay behind earlier ones. -/
def insertByScoreDesc (x : Profile) : List Profile → List Profile
  | [] => [x]
  | y :: ys =>
    if relevanceScore y ≤ relevanceScore x then x :: y :: ys
    else y :: insertByScoreDesc x ys

/-- `job["analyzed_profiles"].sort(key=..., reverse=True)` (`main.py` line
    156): Python's sort is stable, and the stable descending reordering of
    a list is unique, so stable insertion sort realizes it (sortedness,
    permutation and stability are proved below). -/
def sortByScoreDesc : List Profile → List Profile
  | [] => []
  | x :: xs => insertByScoreDesc x (sortByScoreDesc xs)

/-- A concrete environment whose per-profile posts call always raises. -/
def failPostsEnv : Phase2Env :=
  { scrape_posts := fun _ => Except.error "posts boom"
    analyze_profile := fun _ => Except.ok {} }

/-- A concrete environment whose per-profile analysis call always raises. -/
def failAnalyzeEnv : Phase2Env :=
  { scrape_posts := fun _ => Except.ok []
    analyze_profile := fun _ => Except.error "llm boom" }

/-- A profile carrying only a name and an analysis with the given
    relevance score (for concrete sorting executions). -/
def scoreProfile (nm : String) (s : Int) : Profile :=
  { name := nm, analysis := some { relevance_score := s } }

/-- A job sitting in `awaiting_selection` with one selectable profile of
    URL "u" (for concrete phase-2 executions). -/
def jobAwaiting : Job :=
  { phase := Phase.awaiting_selection
    profiles_with_email := [{ name := "A", linkedin_url := "u", email := "a@x" }] }

/-- The profiles `_run_phase2` selects: members of the email/no-email union
    whose URL occurs among the submitted URLs (`main.py` lines 98-99). -/
def selectedProfiles (selected_urls : List String) (job : Job) : List Profile :=
  (job.profiles_with_email ++ job.profiles_without_email).filter
    (fun p => selected_urls.contains p.linkedin_url)

/-- `_run_phase2` (`main.py` lines 93-157) with the two per-profile
    external calls abstracted as `env`.  Returns the successive values
    written to `job["phase"]` and the final job state. -/
def _run_phase2 (env : Phase2Env) (selected_urls : List String) (job : Job) :
    List Phase × Job :=
  let selected := selectedProfiles selected_urls job
  if selected.isEmpty then
    ([Phase.error],
     { job with phase := Phase.error,
                error := "No matching profiles found for the selected URLs." })
  else
    let j1 := { job with phase := Phase.scraping_posts,
                         posts_total := selected.length, posts_scraped := 0 }
    let step1 := selected.foldl (postsStep env) (j1, [])
    let j2 := { step1.1 with phase := Phase.analyzing,
                             analyzed_total := selected.length,
                             analyzed_count := 0, analyzed_profiles := [] }
    let j3 := step1.2.foldl (analyzeStep env) j2
    ([Phase.scraping_posts, Phase.analyzing, Phase.complete],
     { j3 with analyzed_profiles := sortByScoreDesc j3.analyzed_profiles,
               phase := Phase.complete })

/-- `select_profiles` (`main.py` lines 222-242): the submission is accepted
    only while the job is `awaiting_selection` and the URL list is
    non-empty; the list is capped at 25 before the phase-2 thread starts.
    `none` models the synchronous HTTP rejection. -/
def submitSelection (env : Phase2Env) (selected_urls : List String) (job : Job) :
    Option (List Phase × Job) :=
  if job.phase != Phase.awaiting_selection then none
  else if selected_urls.isEmpty then none
  else some (_run_phase2 env (selected_urls.take 25) job)

/-- All values taken by `job["phase"]` over one job's lifetime: `starting`
    written at creation, then the phase-1 writes, then — when a selection
    is submitted and accepted — the phase-2 writes. -/
def phaseTrace (raw_query : String) (max_items : Int) (outcome : ScrapeOutcome)
    (sel : Option (List String × Phase2Env)) : List Phase :=
  let r1 := _run_phase1 outcome (initJob raw_query max_items)
  Phase.starting :: r1.1 ++
    (match sel with
     | Option.none => []
     | Option.some (urls, env) =>
       match submitSelection env urls r1.2 with
       | Option.none => []
       | Option.some r2 => r2.1)

/-- `error` is (eventually) reachable from phase `p`: some execution's
    phase trace contains `p` strictly before an `error`. -/
def ErrorReachableFrom (p : Phase) : Prop :=
  ∃ q mi outcome sel, ∃ i j : Nat, i < j ∧
    (phaseTrace q mi outcome sel)[i]? = some p ∧
    (phaseTrace q mi outcome sel)[j]? = some Phase.error

/- ═══════════════ §6 JSON-level normalizer (`_parse_profile`) ═══════════════ -/

/-- JSON-like values, the payloads the provider dataset yields. -/
inductive JVal where
  | null
  | bool (b : Bool)
  | int (n : Int)
  | str (s : String)
  | arr (elems : List JVal)
  | obj (fields : List (String × JVal))

/-- A provider record: a JSON dictionary. -/
abbrev JObj := List (String × JVal)

/-- Python truthiness of a JSON value. -/
def truthy : JVal → Bool
  | .null => false
  | .bool b => b
  | .int n => n != 0
  | .str s => s != ""
  | .arr l => !l.isEmpty
  | .obj f => !f.isEmpty

/-- Python `a or b`. -/
def pyOr (a b : JVal) : JVal := if truthy a then a else b

/-- First binding of a key in a dictionary (Python dict keys are unique). -/
def lookupKey : JObj → String → Option JVal
  | [], _ => none
  | (k, v) :: rest, key => if k = key then some v else lookupKey rest key

/-- `o.get(key, dflt)` on a value statically known to be a dict. -/
def objGet (o : JObj) (key : String) (dflt : JVal) : JVal :=
  (lookupKey o key).getD dflt

/-- `v.get(key, dflt)` on an arbitrary value: raises `AttributeError`
    unless `v` is a dict. -/
def jGet (v : JVal) (key : String) (dflt : JVal) : Except String JVal :=
  match v with
  | .obj o => .ok (objGet o key dflt)
  | _ => .error "AttributeError: get"

/-- `isinstance(v, dict)`. -/
def JVal.isObjB : JVal → Bool
  | .obj _ => true
  | _ => false

/-- `isinstance(v, str)`. -/
def JVal.isStrB : JVal → Bool
  | .str _ => true
  | _ => false

/-- `v is None`. -/
def JVal.isNullB : JVal → Bool
  | .null => true
  | _ => false

/-- Python `v == "lit"`: only a string can equal a string. -/
def eqStr (v : JVal) (lit : String) : Bool :=
  match v with
  | .str s => s = lit
  | _ => false

mutual
/-- Python `str(v)` for f-string interpolation.  Scalar cases are exact;
    containers render via `repr` of their elements, approximated with
    single quotes and no escaping (no theorem depends on a container ever
    reaching an f-string: the well-shapedness hypotheses rule it out). -/
def pyStr : JVal → String
  | .null => "None"
  | .bool true => "True"
  | .bool false => "False"
  | .int n => toString n
  | .str s => s
  | .arr l => "[" ++ pyReprSeq l ++ "]"
  | .obj f => "\x7b" ++ pyReprFields f ++ "\x7d"

/-- Python `repr(v)` (same approximation as `pyStr` for strings). -/
def pyRepr : JVal → String
  | .null => "None"
  | .bool true => "True"
  | .bool false => "False"
  | .int n => toString n
  | .str s => "\x27" ++ s ++ "\x27"
  | .arr l => "[" ++ pyReprSeq l ++ "]"
  | .obj f => "\x7b" ++ pyReprFields f ++ "\x7d"

/-- Comma-joined `repr`s of list elements. -/
def pyReprSeq : List JVal → String
  | [] => ""
  | [v] => pyRepr v
  | v :: rest => pyRepr v ++ ", " ++ pyReprSeq rest

/-- Comma-joined `repr`s of dict entries. -/
def pyReprFields : List (String × JVal) → String
  | [] => ""
  | [(k, v)] => "\x27" ++ k ++ "\x27: " ++ pyRepr v
  | (k, v) :: rest => "\x27" ++ k ++ "\x27: " ++ pyRepr v ++ ", " ++ pyReprFields rest
end

/-- Left-to-right effectful map over `Except` (a Python for-loop building a
    list, stopping at the first raised exception). -/
def mapExcept {α β : Type} (f : α → Except String β) : List α → Except String (List β)
  | [] => pure []
  | a :: as => do
    let b ← f a
    let bs ← mapExcept f as
    pure (b :: bs)

/-- The per-element type check `str.join` performs. -/
def joinCheck : JVal → Except String String
  | JVal.str s => Except.ok s
  | _ => Except.error "TypeError: join expects str"

/-- `sep.join(values)`: every element must be a `str`, else `TypeError`. -/
def joinStrs (sep : String) (l : List JVal) : Except String String := do
  let strs ← mapExcept joinCheck l
  pure (String.intercalate sep strs)

/-- `_extract_email` (`apify_client_wrapper.py` lines 17-26). -/
def _extract_email (item : JObj) : Except String JVal := do
  let email := pyOr (pyOr (objGet item "email" .null) (objGet item "Email" .null))
                    (.str "")
  if truthy email then
    match email with
    | .str s => pure (.str (pyStrip s))
    | _ => Except.error "AttributeError: strip"
  else
    let emails := pyOr (pyOr (objGet item "emails" .null)
                             (objGet item "emailAddresses" .null))
                       (.arr [])
    match emails with
    | .arr (e0 :: _) =>
      match e0 with
      | .obj o => pure (pyOr (objGet o "email" (.str "")) (objGet o "address" (.str "")))
      | _ => pure (.str (pyStr e0))
    | _ => pure (.str "")

/-- The scan of the `experience` list inside `_extract_current_position`
    (lines 39-45): the first entry whose end date is "Present" or has no
    year; `none` when the loop finishes without returning. -/
def currentFromExperience : List JVal → Except String (Option (JVal × JVal))
  | [] => pure none
  | exp :: rest => do
    let endDate ← jGet exp "endDate" (.obj [])
    let isCurrent ←
      if truthy endDate then do
        let t ← jGet endDate "text" (.str "")
        if eqStr t "Present" then pure true
        else do
          let y ← jGet endDate "year" .null
          pure y.isNullB
      else pure false
    if isCurrent then do
      let c ← jGet exp "companyName" (.str "")
      let u ← jGet exp "companyLinkedinUrl" (.str "")
      pure (some (c, u))
    else currentFromExperience rest

/-- `_extract_current_position` (lines 29-50): the `(company, company_url)`
    pair (raw provider values). -/
def _extract_current_position (item : JObj) : Except String (JVal × JVal) := do
  let positions := pyOr (objGet item "currentPosition" .null) (.arr [])
  match positions with
  | .arr (pos :: _) => do
    let c ← jGet pos "companyName" (.str "")
    let u ← jGet pos "companyLinkedinUrl" (.str "")
    pure (c, u)
  | _ =>
    let experience := pyOr (objGet item "experience" .null) (.arr [])
    match experience with
    | .arr (e0 :: rest) => do
      match ← currentFromExperience (e0 :: rest) with
      | some cu => pure cu
      | none => do
        let c ← jGet e0 "companyName" (.str "")
        let u ← jGet e0 "companyLinkedinUrl" (.str "")
        pure (c, u)
    | _ => pure (.str "", .str "")

/-- The generator `(s.get("name", "") for s in skills if s.get("name"))`
    inside `_extract_skills`: the kept name values in order. -/
def skillNames : List JVal → Except String (List JVal)
  | [] => pure []
  | s :: rest => do
    let n ← jGet s "name" (.str "")
    let tail ← skillNames rest
    if truthy n then pure (n :: tail) else pure tail

/-- `_extract_skills` (lines 112-121). -/
def _extract_skills (item : JObj) : Except String JVal := do
  let skills := pyOr (objGet item "skills" .null) (.arr [])
  match skills with
  | .arr l =>
    match l with
    | s0 :: _ =>
      if s0.isObjB then do
        let names ← skillNames l
        let joined ← joinStrs ", " names
        pure (.str joined)
      else
        pure (.str (String.intercalate ", " (l.map pyStr)))
    | [] => pure (.str "")
  | _ =>
    let top := pyOr (objGet item "topSkills" .null) (.str "")
    if truthy top then pure top else pure (.str "")

/-- `_extract_location` (lines 124-135): `(location_text, country, city)`
    as raw provider values. -/
def _extract_location (item : JObj) : Except String (JVal × JVal × JVal) := do
  let loc := pyOr (objGet item "location" .null) (.obj [])
  match loc with
  | .obj o => do
    let parsed := pyOr (objGet o "parsed" .null) (.obj [])
    let ltext := objGet o "linkedinText" (.str "")
    let c1 ← jGet parsed "countryFull" (.str "")
    let c2 ← jGet parsed "country" (.str "")
    let city ← jGet parsed "city" (.str "")
    pure (ltext, pyOr c1 c2, city)
  | .str s => pure (.str s, .str "", .str "")
  | _ => pure (.str "", .str "", .str "")

/-- One entry of the experience summary (lines 58-72 loop body). -/
def experienceLine (exp : JVal) : Except String String := do
  let title ← jGet exp "position" (.str "")
  let company ← jGet exp "companyName" (.str "")
  let sd ← jGet exp "startDate" .null
  let start ← jGet (pyOr sd (.obj [])) "text" (.str "")
  let ed ← jGet exp "endDate" .null
  let endv ← jGet (pyOr ed (.obj [])) "text" (.str "Present")
  let duration ← jGet exp "duration" (.str "")
  let date_str := if truthy start then JVal.str (pyStr start ++ " – " ++ pyStr endv)
                  else duration
  let skillsRaw ← jGet exp "skills" .null
  let skills_list := pyOr skillsRaw (.arr [])
  let descRaw ← jGet exp "description" .null
  let desc ←
    match pyOr descRaw (.str "") with
    | .str s => Except.ok (pyStrip (String.mk (s.data.take 300)))
    | .arr _ => Except.error "AttributeError: strip"
    | _ => Except.error "TypeError: not subscriptable"
  let base := pyStr title ++ " at " ++ pyStr company ++ " (" ++ pyStr date_str ++ ")"
  let parts1 := if desc != "" then [base, "  " ++ desc] else [base]
  let parts2 ←
    if truthy skills_list then do
      let sk ←
        match skills_list with
        | .arr l => joinStrs ", " (l.take 6)
        | .str s => Except.ok (String.intercalate ", "
            ((s.data.take 6).map (fun c => String.mk [c])))
        | _ => Except.error "TypeError: not subscriptable"
      pure (parts1 ++ ["  Skills: " ++ sk])
    else pure parts1
  pure (String.intercalate "\n" parts2)

/-- `_extract_experience_summary` (lines 53-73).  A truthy non-list value
    raises: a string yields characters whose `.get` raises, anything else
    is not sliceable. -/
def _extract_experience_summary (item : JObj) : Except String String := do
  let experience := pyOr (objGet item "experience" .null) (.arr [])
  if !truthy experience then pure ""
  else
    match experience with
    | .arr l => do
      let lines ← mapExcept experienceLine (l.take 6)
      pure (String.intercalate "\n\n" lines)
    | .str _ => Except.error "AttributeError: get"
    | _ => Except.error "TypeError: not subscriptable"

/-- One entry of the education summary (lines 81-90 loop body).  `entry`
    stays a raw value until the final join, because when `qual` is empty
    the Python code uses the raw `school` value as the entry. -/
def educationLine (edu : JVal) : Except String JVal := do
  let school ← jGet edu "schoolName" (.str "")
  let degree ← jGet edu "degree" (.str "")
  let field ← jGet edu "fieldOfStudy" (.str "")
  let period ← jGet edu "period" (.str "")
  let qual ← joinStrs ", " ((if truthy degree then [degree] else []) ++
                            (if truthy field then [field] else []))
  let entry := if qual != "" then JVal.str (qual ++ " — " ++ pyStr school) else school
  if truthy period then
    match entry with
    | .str e => pure (.str (e ++ " (" ++ pyStr period ++ ")"))
    | _ => Except.error "TypeError: unsupported operand"
  else pure entry

/-- `_extract_education_summary` (lines 76-91). -/
def _extract_education_summary (item : JObj) : Except String String := do
  let education := pyOr (objGet item "education" .null) (.arr [])
  if !truthy education then pure ""
  else
    match education with
    | .arr l => do
      let lines ← mapExcept educationLine (l.take 4)
      joinStrs "\n" lines
    | .str _ => Except.error "AttributeError: get"
    | _ => Except.error "TypeError: not subscriptable"

/-- One entry of the certifications summary (lines 98-108 loop body). -/
def certificationLine (cert : JVal) : Except String String := do
  let title ← jGet cert "title" (.str "")
  let issued_by ← jGet cert "issuedBy" (.str "")
  let issued_at ← jGet cert "issuedAt" (.str "")
  let parts := [title] ++
    (if truthy issued_by then [JVal.str ("by " ++ pyStr issued_by)] else []) ++
    (if truthy issued_at then [JVal.str ("(" ++ pyStr issued_at ++ ")")] else [])
  joinStrs " " parts

/-- `_extract_certifications_summary` (lines 94-109). -/
def _extract_certifications_summary (item : JObj) : Except String String := do
  let certs := pyOr (objGet item "certifications" .null) (.arr [])
  if !truthy certs then pure ""
  else
    match certs with
    | .arr l => do
      let lines ← mapExcept certificationLine (l.take 6)
      pure (String.intercalate "\n" lines)
    | .str _ => Except.error "AttributeError: get"
    | _ => Except.error "TypeError: not subscriptable"

/-- `_parse_profile` (lines 138-165): the normalized record as an ordered
    key/value list of raw provider values; an exception raised by any
    helper propagates (helpers are sequenced in Python evaluation order). -/
def _parse_profile (item : JObj) : Except String JObj := do
  let position ← _extract_current_position item
  let location ← _extract_location item
  let skills ← _extract_skills item
  let email ← _extract_email item
  let exps ← _extract_experience_summary item
  let edus ← _extract_education_summary item
  let certs ← _extract_certifications_summary item
  pure [
    ("first_name", objGet item "firstName" (.str "")),
    ("last_name", objGet item "lastName" (.str "")),
    ("name", .str (pyStrip (pyStr (objGet item "firstName" (.str "")) ++ " " ++
                            pyStr (objGet item "lastName" (.str ""))))),
    ("headline", objGet item "headline" (.str "")),
    ("job_title", objGet item "headline" (.str "")),
    ("company", position.1),
    ("company_url", position.2),
    ("about", objGet item "about" (.str "")),
    ("skills", skills),
    ("linkedin_url", objGet item "linkedinUrl" (.str "")),
    ("email", email),
    ("country", location.2.1),
    ("city", location.2.2),
    ("location_text", location.1),
    ("connections", objGet item "connectionsCount" (.int 0)),
    ("followers", objGet item "followerCount" (.int 0)),
    ("is_hiring", objGet item "hiring" (.bool false)),
    ("is_open_to_work", objGet item "openToWork" (.bool false)),
    ("is_premium", objGet item "premium" (.bool false)),
    ("photo", pyOr (objGet item "photo" (.str "")) (.str "")),
    ("experience_summary", .str exps),
    ("education_summary", .str edus),
    ("certifications_summary", .str certs)
  ]

/- ─────────────── Well-shapedness (sufficient no-raise condition) ─────────────── -/

/-- The value is a string or Python-falsy. -/
def strOrFalsy (v : JVal) : Bool := v.isStrB || !truthy v

/-- A nested date value is safe when it is a dict or falsy
    (`(d or {}).get(...)` / `if d and d.get(...)`). -/
def dateOk (v : JVal) : Bool := v.isObjB || !truthy v

/-- A well-shaped `experience` entry: a dict whose nested date values are
    dicts (or falsy), whose `skills` value (when truthy) is a list of
    strings, and whose `description` (when truthy) is a string. -/
def expEntryOk : JVal → Bool
  | .obj o =>
    dateOk (objGet o "startDate" .null) &&
    dateOk (objGet o "endDate" .null) &&
    (let sk := objGet o "skills" .null
     !truthy sk || (match sk with | .arr l => l.all JVal.isStrB | _ => false)) &&
    strOrFalsy (objGet o "description" .null)
  | _ => false

/-- A well-shaped `education` entry: a dict with a string `schoolName`
    (default applies when absent) and string-or-falsy degree/field. -/
def eduEntryOk : JVal → Bool
  | .obj o =>
    (objGet o "schoolName" (.str "")).isStrB &&
    strOrFalsy (objGet o "degree" .null) &&
    strOrFalsy (objGet o "fieldOfStudy" .null)
  | _ => false

/-- A well-shaped `certifications` entry: a dict with a string `title`
    (default applies when absent). -/
def certEntryOk : JVal → Bool
  | .obj o => (objGet o "title" (.str "")).isStrB
  | _ => false

/-- A list-valued field is safe when falsy or a list of safe entries. -/
def listFieldOk (entryOk : JVal → Bool) (v : JVal) : Bool :=
  !truthy v || (match v with | .arr l => l.all entryOk | _ => false)

/-- A well-shaped `skills` value: when it is a non-empty list headed by a
    dict, every element is a dict whose `name` value is a string or falsy. -/
def skillsOk : JVal → Bool
  | .arr (s0 :: rest) =>
    !s0.isObjB ||
      (s0 :: rest).all (fun s =>
        s.isObjB && strOrFalsy (match s with | .obj o => objGet o "name" .null | _ => .null))
  | _ => true

/-- A well-shaped `location` value: when it is a dict, its `parsed` value
    is a dict or falsy. -/
def locationOk : JVal → Bool
  | .obj o => (pyOr (objGet o "parsed" .null) (.obj [])).isObjB
  | _ => true

/-- A sufficient structural condition under which `_parse_profile` cannot
    raise: composite fields contain dicts where the code calls `.get`,
    joined leaf fields are strings, nested date/`parsed` values are dicts
    when truthy.  A record missing every optional field satisfies it. -/
def wellShapedItem (item : JObj) : Bool :=
  strOrFalsy (objGet item "email" .null) &&
  strOrFalsy (objGet item "Email" .null) &&
  (match objGet item "currentPosition" .null with
   | .arr (p :: _) => p.isObjB
   | _ => true) &&
  listFieldOk expEntryOk (objGet item "experience" .null) &&
  listFieldOk eduEntryOk (objGet item "education" .null) &&
  listFieldOk certEntryOk (objGet item "certifications" .null) &&
  skillsOk (objGet item "skills" .null) &&
  locationOk (objGet item "location" .null)

/-- The record `_parse_profile` produces for an empty provider record:
    every string field empty, every count zero, every flag false. -/
def defaultParsedProfile : JObj :=
  [("first_name", .str ""), ("last_name", .str ""), ("name", .str ""),
   ("headline", .str ""), ("job_title", .str ""), ("company", .str ""),
   ("company_url", .str ""), ("about", .str ""), ("skills", .str ""),
   ("linkedin_url", .str ""), ("email", .str ""), ("country", .str ""),
   ("city", .str ""), ("location_text", .str ""), ("connections", .int 0),
   ("followers", .int 0), ("is_hiring", .bool false),
   ("is_open_to_work", .bool false), ("is_premium", .bool false),
   ("photo", .str ""), ("experience_summary", .str ""),
   ("education_summary", .str ""), ("certifications_summary", .str "")]

/- ═══════════════════════ THEOREMS ═══════════════════════ -/

/-- Any message of the all-excluded branch starts with an `L`, the
    no-results message with an `N`. -/
theorem allExcludedMsg_ne_noResultsMsg (n : Nat) : allExcludedMsg n ≠ noResultsMsg := by
  intro h
  have h2 := congrArg String.data h
  simp [allExcludedMsg, noResultsMsg, String.data_append] at h2

/-- C10: for every accepted job-creation request, `start_search` stores
    `maxItems` as the maximum of the client-requested value (default 50)
    and 50 — a requested count below 50 is silently raised to 50, a count
    of at least 50 passes through unchanged. -/
theorem start_search_maxItems_clamp :
    (∀ q j, start_search q none = some j → j.search_max_items = 50) ∧
    (∀ q (n : Int) j, start_search q (some n) = some j →
      (n < 50 → j.search_max_items = 50) ∧ (50 ≤ n → j.search_max_items = n)) := by
  constructor
  · intro q j h
    unfold start_search at h
    split at h
    · exact absurd h (by simp)
    · cases h
      rfl
  · intro q n j h
    unfold start_search at h
    split at h
    · exact absurd h (by simp)
    · cases h
      constructor
      · intro hlt
        show max ((some n).getD 50) 50 = 50
        simp [max_eq_right (le_of_lt hlt)]
      · intro hge
        show max ((some n).getD 50) 50 = n
        simp [max_eq_left hge]

/-- Witness for C10 at the concrete requests `maxItems = 30` and
    `maxItems = 60`. -/
theorem start_search_maxItems_clamp_witness :
    (initJob "q" 50).search_max_items = 50 ∧ (initJob "q" 60).search_max_items = 60 :=
  ⟨(start_search_maxItems_clamp.2 "q" 30 (initJob "q" 50) (by decide)).1 (by decide),
   (start_search_maxItems_clamp.2 "q" 60 (initJob "q" 60) (by decide)).2 (by decide)⟩

/-- C5: if the provider search call raises during the scraping phase,
    `_run_phase1` moves the job straight to `error` with the exception
    message behind the prefix "Profile search failed: " (the error field
    goes from its initial empty value to that message, once), and the
    job's result collections stay empty. -/
theorem phase1_provider_failure (q msg : String) (mi : Int) :
    ((_run_phase1 (.fail msg) (initJob q mi)).1 = [Phase.scraping, Phase.error]) ∧
    (_run_phase1 (.fail msg) (initJob q mi)).2.phase = Phase.error ∧
    (_run_phase1 (.fail msg) (initJob q mi)).2.error = "Profile search failed: " ++ msg ∧
    (initJob q mi).error = "" ∧
    (_run_phase1 (.fail msg) (initJob q mi)).2.profiles_with_email = [] ∧
    (_run_phase1 (.fail msg) (initJob q mi)).2.profiles_without_email = [] ∧
    (_run_phase1 (.fail msg) (initJob q mi)).2.analyzed_profiles = [] ∧
    (_run_phase1 (.fail msg) (initJob q mi)).2.profiles_found = 0 :=
  ⟨rfl, rfl, rfl, rfl, rfl, rfl, rfl, rfl⟩

/-- C6: during filtering, an empty filtered set sends the job to `error`
    with a message that distinguishes raw-count positive (all excluded by
    the NOT filters) from raw-count zero (no results at all); otherwise the
    filtered set is partitioned by email presence, both parts are stored,
    and the job moves to `awaiting_selection`. -/
theorem phase1_filtering_behavior (q : String) (mi : Int) (raw : List Profile) :
    (filter_profiles raw q = [] → raw ≠ [] →
      (_run_phase1 (.ok raw) (initJob q mi)).2.phase = Phase.error ∧
      (_run_phase1 (.ok raw) (initJob q mi)).2.error = allExcludedMsg raw.length) ∧
    (filter_profiles raw q = [] → raw = [] →
      (_run_phase1 (.ok raw) (initJob q mi)).2.phase = Phase.error ∧
      (_run_phase1 (.ok raw) (initJob q mi)).2.error = noResultsMsg) ∧
    (∀ n, allExcludedMsg n ≠ noResultsMsg) ∧
    (filter_profiles raw q ≠ [] →
      (_run_phase1 (.ok raw) (initJob q mi)).2.phase = Phase.awaiting_selection ∧
      (_run_phase1 (.ok raw) (initJob q mi)).2.profiles_with_email =
        (filter_profiles raw q).filter (fun p => p.email != "") ∧
      (_run_phase1 (.ok raw) (initJob q mi)).2.profiles_without_email =
        (filter_profiles raw q).filter (fun p => p.email == "") ∧
      ((_run_phase1 (.ok raw) (initJob q mi)).2.profiles_with_email ++
        (_run_phase1 (.ok raw) (initJob q mi)).2.profiles_without_email).Perm
        (filter_profiles raw q) ∧
      (_run_phase1 (.ok raw) (initJob q mi)).2.profiles_filtered =
        (filter_profiles raw q).length) := by
  have hq : filter_profiles raw ((initJob q mi).search_params_query) = filter_profiles raw q := rfl
  refine ⟨?_, ?_, allExcludedMsg_ne_noResultsMsg, ?_⟩
  · intro hf hraw
    have hmem : (filter_profiles raw ((initJob q mi).search_params_query)).isEmpty = true := by
      rw [hq, hf]; rfl
    have hlen : raw.length > 0 := by
      cases raw with
      | nil => exact absurd rfl hraw
      | cons a l => simp
    constructor
    · simp only [_run_phase1, hmem, if_true]
    · simp only [_run_phase1, hmem, if_true, hlen]
  · intro hf hraw
    subst hraw
    have hmem : (filter_profiles ([] : List Profile) ((initJob q mi).search_params_query)).isEmpty = true := by
      rw [hq, hf]; rfl
    constructor
    · simp only [_run_phase1, hmem, if_true]
    · simp only [_run_phase1, hmem, if_true]
      simp
  · intro hf
    have hmem : (filter_profiles raw ((initJob q mi).search_params_query)).isEmpty = false := by
      rw [hq]
      simpa using hf
    refine ⟨?_, ?_, ?_, ?_, ?_⟩
    · simp only [_run_phase1, hmem, Bool.false_eq_true, if_false]
    · simp only [_run_phase1, hmem, Bool.false_eq_true, if_false]
      rw [hq]
    · simp only [_run_phase1, hmem, Bool.false_eq_true, if_false]
      rw [hq]
    · simp only [_run_phase1, hmem, Bool.false_eq_true, if_false]
      have := List.filter_append_perm (fun p : Profile => p.email != "") (filter_profiles raw q)
      have hfun : (fun p : Profile => !(p.email != "")) = (fun p : Profile => p.email == "") := by
        funext p
        simp [bne]
      rwa [hfun] at this
    · simp only [_run_phase1, hmem, Bool.false_eq_true, if_false]
      rw [hq]

/-- Witness for C6: a query "NOT intern" excluding the only profile hits
    the all-excluded error message; an empty raw set hits the no-results
    message; a surviving profile set reaches `awaiting_selection`. -/
theorem phase1_filtering_behavior_witness :
    ((_run_phase1 (.ok [{ name := "A", headline := "Marketing Intern", linkedin_url := "u1" }])
        (initJob "NOT intern" 50)).2.phase = Phase.error ∧
     (_run_phase1 (.ok [{ name := "A", headline := "Marketing Intern", linkedin_url := "u1" }])
        (initJob "NOT intern" 50)).2.error = allExcludedMsg 1) ∧
    ((_run_phase1 (.ok []) (initJob "x" 50)).2.phase = Phase.error ∧
     (_run_phase1 (.ok []) (initJob "x" 50)).2.error = noResultsMsg) ∧
    (_run_phase1 (.ok [{ name := "B", linkedin_url := "u2" }]) (initJob "x" 50)).2.phase =
      Phase.awaiting_selection :=
  ⟨(phase1_filtering_behavior "NOT intern" 50
      [{ name := "A", headline := "Marketing Intern", linkedin_url := "u1" }]).1
      (by decide) (by decide),
   (phase1_filtering_behavior "x" 50 []).2.1 (by decide) rfl,
   ((phase1_filtering_behavior "x" 50 [{ name := "B", linkedin_url := "u2" }]).2.2.2
      (by decide)).1⟩

/-- `collectDedup` keeps a subsequence of its input (arrival order, no
    reordering, no duplication). -/
theorem collectDedup_sublist (seen : List String) (ps : List Profile) :
    (collectDedup seen ps).Sublist ps := by
  induction ps generalizing seen with
  | nil => exact List.Sublist.refl []
  | cons p rest ih =>
    simp only [collectDedup]
    split
    · exact (ih seen).cons p
    · split
      · exact (ih _).cons₂ p
      · exact (ih seen).cons₂ p

/-- Among the profiles sharing one fixed non-empty URL `u`, `collectDedup`
    keeps exactly the first-encountered one — none at all if `u` was
    already seen. -/
theorem collectDedup_filter_eq (u : String) (hu : u ≠ "") (ps : List Profile) :
    ∀ seen : List String,
    (collectDedup seen ps).filter (fun p => p.linkedin_url == u) =
      (if seen.contains u then [] else
        (ps.filter (fun p => p.linkedin_url == u)).take 1) := by
  induction ps with
  | nil => intro seen; simp [collectDedup]
  | cons p rest ih =>
    intro seen
    simp only [collectDedup]
    by_cases hpu : p.linkedin_url = u
    · have hne : (p.linkedin_url != "") = true := by
        rw [hpu]; simpa using hu
      by_cases hs : seen.contains u = true
      · rw [if_pos (by rw [hne, hpu, hs]; rfl)]
        rw [ih seen, if_pos hs, if_pos hs]
      · have hsf : seen.contains u = false := by simpa using hs
        rw [if_neg (by rw [hne, hpu, hsf]; simp), if_pos hne]
        rw [List.filter_cons, if_pos (by rw [hpu]; simp)]
        rw [ih (p.linkedin_url :: seen), hpu]
        rw [if_pos (by simp [List.contains_cons])]
        rw [if_neg (by rw [hsf]; simp)]
        rw [List.filter_cons, if_pos (by rw [hpu]; simp)]
        rfl
    · have hfu : (p.linkedin_url == u) = false := by simpa using hpu
      by_cases hcase : (p.linkedin_url != "" && seen.contains p.linkedin_url) = true
      · rw [if_pos hcase, ih seen, List.filter_cons, hfu]
        simp
      · rw [if_neg (by simpa using hcase)]
        by_cases hne : (p.linkedin_url != "") = true
        · rw [if_pos hne]
          rw [List.filter_cons, hfu]
          simp only [Bool.false_eq_true, if_false]
          rw [ih (p.linkedin_url :: seen)]
          have : (p.linkedin_url :: seen).contains u = seen.contains u := by
            simp [List.contains_cons, hpu]
            intro h
            exact absurd h.symm hpu
          rw [this, List.filter_cons, hfu]
          simp
        · rw [if_neg hne, List.filter_cons, hfu]
          simp only [Bool.false_eq_true, if_false]
          rw [ih seen, List.filter_cons, hfu]
          simp

/-- Every collected profile with a non-empty URL had not been seen at the
    time `collectDedup` started. -/
theorem collectDedup_mem_not_seen (ps : List Profile) :
    ∀ (seen : List String), ∀ x ∈ collectDedup seen ps,
      x.linkedin_url ≠ "" → seen.contains x.linkedin_url = false := by
  induction ps with
  | nil => intro seen x hx; simp [collectDedup] at hx
  | cons p rest ih =>
    intro seen x hx hxu
    simp only [collectDedup] at hx
    by_cases h1 : (p.linkedin_url != "" && seen.contains p.linkedin_url) = true
    · rw [if_pos h1] at hx
      exact ih seen x hx hxu
    · rw [if_neg h1] at hx
      by_cases h2 : (p.linkedin_url != "") = true
      · rw [if_pos h2] at hx
        rcases List.mem_cons.mp hx with hx | hx
        · subst hx
          cases hres : seen.contains x.linkedin_url
          · rfl
          · exact absurd (by rw [Bool.and_eq_true]; exact ⟨h2, hres⟩) h1
        · have hmem := ih (p.linkedin_url :: seen) x hx hxu
          rw [List.contains_cons] at hmem
          exact (Bool.or_eq_false_iff.mp hmem).2
      · rw [if_neg h2] at hx
        rcases List.mem_cons.mp hx with hx | hx
        · subst hx
          exact absurd (by simpa using h2) hxu
        · exact ih seen x hx hxu

/-- The collected profiles have pairwise distinct non-empty URLs. -/
theorem collectDedup_pairwise (ps : List Profile) :
    ∀ seen : List String,
    (collectDedup seen ps).Pairwise
      (fun a b => a.linkedin_url ≠ "" → b.linkedin_url ≠ "" →
        a.linkedin_url ≠ b.linkedin_url) := by
  induction ps with
  | nil => intro seen; simp [collectDedup]
  | cons p rest ih =>
    intro seen
    simp only [collectDedup]
    by_cases h1 : (p.linkedin_url != "" && seen.contains p.linkedin_url) = true
    · rw [if_pos h1]
      exact ih seen
    · rw [if_neg h1]
      by_cases h2 : (p.linkedin_url != "") = true
      · rw [if_pos h2]
        refine List.Pairwise.cons ?_ (ih _)
        intro b hb _ hbu heq
        have hnot := collectDedup_mem_not_seen rest (p.linkedin_url :: seen) b hb hbu
        rw [List.contains_cons] at hnot
        have hfst := (Bool.or_eq_false_iff.mp hnot).1
        rw [heq] at hfst
        simp at hfst
      · rw [if_neg h2]
        refine List.Pairwise.cons ?_ (ih seen)
        intro b _ hpu _
        exact absurd (by simpa using h2) hpu

/-- C2: `scrape_profiles_advanced` returns the normalized profiles in
    arrival order deduplicated by profile URL: the result is a subsequence
    of the input, for every non-empty URL exactly the first-encountered
    profile with that URL survives, and all non-empty URLs in the result
    are pairwise distinct. -/
theorem scrape_dedup_spec (parsed : List Profile) :
    (scrapeProfilesResults parsed).Sublist parsed ∧
    (∀ u : String, u ≠ "" →
      (scrapeProfilesResults parsed).filter (fun p => p.linkedin_url == u) =
        (parsed.filter (fun p => p.linkedin_url == u)).take 1) ∧
    (scrapeProfilesResults parsed).Pairwise
      (fun a b => a.linkedin_url ≠ "" → b.linkedin_url ≠ "" →
        a.linkedin_url ≠ b.linkedin_url) := by
  refine ⟨collectDedup_sublist [] parsed, ?_, collectDedup_pairwise parsed []⟩
  intro u hu
  have := collectDedup_filter_eq u hu parsed []
  simpa [scrapeProfilesResults] using this

/-- Witness for C2: two profiles sharing the URL "u" — only the first
    survives. -/
theorem scrape_dedup_spec_witness :
    (scrapeProfilesResults
        [{ name := "A", linkedin_url := "u" }, { name := "B", linkedin_url := "u" }]).filter
      (fun p => p.linkedin_url == "u") =
    (([{ name := "A", linkedin_url := "u" }, { name := "B", linkedin_url := "u" }] :
        List Profile).filter (fun p => p.linkedin_url == "u")).take 1 :=
  (scrape_dedup_spec
    [{ name := "A", linkedin_url := "u" }, { name := "B", linkedin_url := "u" }]).2.1
    "u" (by decide)

/-- `pyInStr` decides list-infix containment of the character data. -/
theorem pyInStr_iff (needle hay : String) :
    pyInStr needle hay = true ↔ List.IsInfix needle.data hay.data := by
  unfold pyInStr
  rw [List.any_eq_true]
  constructor
  · rintro ⟨t, ht, hp⟩
    rw [List.mem_tails] at ht
    rw [List.isPrefixOf_iff_prefix] at hp
    exact List.infix_iff_prefix_suffix.mpr ⟨t, hp, ht⟩
  · intro h
    rcases List.infix_iff_prefix_suffix.mp h with ⟨t, hp, hs⟩
    exact ⟨t, (List.mem_tails _ _).mpr hs, List.isPrefixOf_iff_prefix.mpr hp⟩

/-- C3: when the query yields no exclusion term — in particular when it is
    empty or contains no case-insensitive `NOT` marker followed by a term —
    `filter_profiles` returns its input unchanged in content and order;
    otherwise it returns exactly the sub-list, in input order, of profiles
    whose concatenated searchable text (name, headline, company, about,
    skills, job title) contains no extracted exclusion term as a
    case-insensitive substring (terms and text both lowercased). -/
theorem filter_profiles_spec (ps : List Profile) (q : String) :
    (notMatchTerms (pyStrip q) = [] → filter_profiles ps q = ps) ∧
    (notMatchTerms (pyStrip q) ≠ [] →
      filter_profiles ps q = ps.filter (fun p =>
        decide (∀ t ∈ notMatchTerms (pyStrip q),
          ¬ List.IsInfix t.data (profileBlob p).data))) := by
  constructor
  · intro h
    simp only [filter_profiles]
    split
    · rfl
    · simp [h]
  · intro h
    simp only [filter_profiles]
    split
    · rename_i hq
      exfalso
      apply h
      rw [hq]
      rfl
    · rw [if_neg (by simpa using h)]
      refine List.filter_congr ?_
      intro p _
      rcases Classical.em (∀ t ∈ notMatchTerms (pyStrip q),
          ¬ List.IsInfix t.data (profileBlob p).data) with hc | hc
      · rw [decide_eq_true hc]
        have hany : (notMatchTerms (pyStrip q)).any
            (fun t => pyInStr t (profileBlob p)) = false := by
          rw [List.any_eq_false]
          intro t ht
          cases hpy : pyInStr t (profileBlob p)
          · simp
          · exact absurd ((pyInStr_iff t (profileBlob p)).mp hpy) (hc t ht)
        rw [hany]
        rfl
      · rw [decide_eq_false hc]
        push_neg at hc
        rcases hc with ⟨t, ht, hinf⟩
        have hany : (notMatchTerms (pyStrip q)).any
            (fun t => pyInStr t (profileBlob p)) = true :=
          List.any_eq_true.mpr ⟨t, ht, (pyInStr_iff t (profileBlob p)).mpr hinf⟩
        rw [hany]
        rfl

/-- Witness for C3: "brand manager NOT intern" filters out the profile
    whose headline contains "Intern"; a query with no NOT term is a no-op. -/
theorem filter_profiles_spec_witness :
    (filter_profiles
        [{ name := "A", headline := "Marketing Intern" }, { name := "B" }]
        "brand manager NOT intern" =
      ([{ name := "A", headline := "Marketing Intern" }, { name := "B" }] :
          List Profile).filter (fun p =>
        decide (∀ t ∈ notMatchTerms (pyStrip "brand manager NOT intern"),
          ¬ List.IsInfix t.data (profileBlob p).data))) ∧
    filter_profiles [{ name := "A", headline := "Marketing Intern" }] "hello" =
      [{ name := "A", headline := "Marketing Intern" }] :=
  ⟨(filter_profiles_spec
      [{ name := "A", headline := "Marketing Intern" }, { name := "B" }]
      "brand manager NOT intern").2 (by decide),
   (filter_profiles_spec [{ name := "A", headline := "Marketing Intern" }]
      "hello").1 (by decide)⟩

/-- The posts loop appends the post-attached profiles in input order. -/
theorem postsLoop_acc (env : Phase2Env) (sel : List Profile) :
    ∀ (j : Job) (acc : List Profile),
    (sel.foldl (postsStep env) (j, acc)).2 = acc ++ sel.map (attachPosts env) := by
  induction sel with
  | nil => intro j acc; simp
  | cons p rest ih =>
    intro j acc
    simp only [List.foldl_cons, postsStep]
    rw [ih]
    simp

/-- The posts counter advances by one per processed profile. -/
theorem postsLoop_counter (env : Phase2Env) (sel : List Profile) :
    ∀ (j : Job) (acc : List Profile),
    ((sel.foldl (postsStep env) (j, acc)).1).posts_scraped =
      j.posts_scraped + sel.length := by
  induction sel with
  | nil => intro j acc; simp
  | cons p rest ih =>
    intro j acc
    simp only [List.foldl_cons, postsStep]
    rw [ih]
    simp only [List.length_cons]
    omega

/-- The analysis loop appends the analysis-attached profiles in order. -/
theorem analyzeLoop_profiles (env : Phase2Env) (l : List Profile) :
    ∀ j : Job, (l.foldl (analyzeStep env) j).analyzed_profiles =
      j.analyzed_profiles ++ l.map (attachAnalysis env) := by
  induction l with
  | nil => intro j; simp
  | cons p rest ih =>
    intro j
    simp only [List.foldl_cons, analyzeStep]
    rw [ih]
    simp

/-- The analysis counter advances by one per processed profile. -/
theorem analyzeLoop_counter (env : Phase2Env) (l : List Profile) :
    ∀ j : Job, (l.foldl (analyzeStep env) j).analyzed_count =
      j.analyzed_count + l.length := by
  induction l with
  | nil => intro j; simp
  | cons p rest ih =>
    intro j
    simp only [List.foldl_cons, analyzeStep]
    rw [ih]
    simp only [List.length_cons]
    omega

/-- Inserting preserves the permutation class. -/
theorem insertByScoreDesc_perm (x : Profile) (l : List Profile) :
    (insertByScoreDesc x l).Perm (x :: l) := by
  induction l with
  | nil => simp [insertByScoreDesc]
  | cons y ys ih =>
    simp only [insertByScoreDesc]
    split
    · exact List.Perm.refl _
    · exact (ih.cons y).trans (List.Perm.swap x y ys)

/-- The sort permutes its input. -/
theorem sortByScoreDesc_perm (l : List Profile) : (sortByScoreDesc l).Perm l := by
  induction l with
  | nil => exact List.Perm.refl _
  | cons x xs ih =>
    simp only [sortByScoreDesc]
    exact (insertByScoreDesc_perm x _).trans (ih.cons x)

/-- Inserting preserves descending sortedness. -/
theorem insertByScoreDesc_sorted (x : Profile) (l : List Profile)
    (h : l.Pairwise (fun a b => relevanceScore b ≤ relevanceScore a)) :
    (insertByScoreDesc x l).Pairwise
      (fun a b => relevanceScore b ≤ relevanceScore a) := by
  induction l with
  | nil => simp [insertByScoreDesc]
  | cons y ys ih =>
    simp only [insertByScoreDesc]
    by_cases hyx : relevanceScore y ≤ relevanceScore x
    · rw [if_pos hyx]
      refine List.Pairwise.cons ?_ h
      intro b hb
      rcases List.mem_cons.mp hb with rfl | hb
      · exact hyx
      · exact le_trans ((List.pairwise_cons.mp h).1 b hb) hyx
    · rw [if_neg hyx]
      have h2 := List.pairwise_cons.mp h
      refine List.Pairwise.cons ?_ (ih h2.2)
      intro b hb
      have hb2 := (insertByScoreDesc_perm x ys).mem_iff.mp hb
      rcases List.mem_cons.mp hb2 with rfl | hb2
      · exact le_of_lt (lt_of_not_le hyx)
      · exact h2.1 b hb2

/-- The sort output is descending in relevance score. -/
theorem sortByScoreDesc_sorted (l : List Profile) :
    (sortByScoreDesc l).Pairwise
      (fun a b => relevanceScore b ≤ relevanceScore a) := by
  induction l with
  | nil => simp [sortByScoreDesc]
  | cons x xs ih =>
    simp only [sortByScoreDesc]
    exact insertByScoreDesc_sorted x _ ih

/-- Stability of one insertion, phrased on the fibre of one score value:
    the inserted element lands in front of the fibre, every other fibre
    member keeps its position. -/
theorem insertByScoreDesc_filter (x : Profile) (l : List Profile) (s : Int) :
    (insertByScoreDesc x l).filter (fun p => relevanceScore p == s) =
      (if relevanceScore x == s then
        x :: l.filter (fun p => relevanceScore p == s)
      else l.filter (fun p => relevanceScore p == s)) := by
  induction l with
  | nil =>
    by_cases hx : (relevanceScore x == s) = true
    · simp [insertByScoreDesc, hx]
    · simp [insertByScoreDesc, hx]
  | cons y ys ih =>
    simp only [insertByScoreDesc]
    by_cases hyx : relevanceScore y ≤ relevanceScore x
    · rw [if_pos hyx]
      by_cases hx : (relevanceScore x == s) = true
      · rw [if_pos hx, List.filter_cons, if_pos hx]
      · have hx2 : (relevanceScore x == s) = false := by simpa using hx
        rw [if_neg hx, List.filter_cons, hx2]
        simp only [Bool.false_eq_true, if_false]
    · rw [if_neg hyx]
      have hlt : relevanceScore x < relevanceScore y := lt_of_not_le hyx
      rw [List.filter_cons]
      by_cases hy : (relevanceScore y == s) = true
      · have hys : relevanceScore y = s := by simpa using hy
        have hx2 : (relevanceScore x == s) = false := by
          have : relevanceScore x ≠ s := by omega
          simpa using this
        rw [hy]
        simp only [if_true]
        rw [ih, hx2]
        simp only [Bool.false_eq_true, if_false]
        rw [List.filter_cons, hy]
        simp
      · have hy2 : (relevanceScore y == s) = false := by simpa using hy
        rw [hy2]
        simp only [Bool.false_eq_true, if_false]
        rw [ih]
        by_cases hx : (relevanceScore x == s) = true
        · rw [if_pos hx, if_pos hx, List.filter_cons, hy2]
          simp only [Bool.false_eq_true, if_false]
        · rw [if_neg hx, if_neg hx, List.filter_cons, hy2]
          simp only [Bool.false_eq_true, if_false]

/-- Stability of the whole sort: every score fibre keeps its original
    (encounter) order. -/
theorem sortByScoreDesc_filter (l : List Profile) (s : Int) :
    (sortByScoreDesc l).filter (fun p => relevanceScore p == s) =
      l.filter (fun p => relevanceScore p == s) := by
  induction l with
  | nil => rfl
  | cons x xs ih =>
    simp only [sortByScoreDesc]
    rw [insertByScoreDesc_filter]
    by_cases hx : (relevanceScore x == s) = true
    · rw [if_pos hx, ih, List.filter_cons, if_pos hx]
    · have hx2 : (relevanceScore x == s) = false := by simpa using hx
      rw [if_neg hx, ih, List.filter_cons, hx2]
      simp only [Bool.false_eq_true, if_false]

/-- C7: during `scraping_posts` a per-profile `scrape_posts` failure keeps
    that profile with an empty posts list (nothing else changes on it); the
    `posts_scraped` counter reads exactly the number of attempted profiles
    after every iteration; and once every selected profile has been
    attempted the run unconditionally proceeds to `analyzing` and then
    `complete`, with every selected profile still present in order. -/
theorem phase2_posts_partial_failure (env : Phase2Env) (selected_urls : List String) (job : Job) :
    (∀ p msg, env.scrape_posts p = .error msg → attachPosts env p = { p with posts := [] }) ∧
    (∀ (j : Job) (k : Nat), j.posts_scraped = 0 →
      (((selectedProfiles selected_urls job).take k).foldl (postsStep env) (j, [])).1.posts_scraped
        = min k (selectedProfiles selected_urls job).length) ∧
    (∀ j : Job, ((selectedProfiles selected_urls job).foldl (postsStep env) (j, [])).2 =
      (selectedProfiles selected_urls job).map (attachPosts env)) ∧
    (selectedProfiles selected_urls job ≠ [] →
      (_run_phase2 env selected_urls job).1 =
        [Phase.scraping_posts, Phase.analyzing, Phase.complete]) := by
  refine ⟨?_, ?_, ?_, ?_⟩
  · intro p msg h
    simp [attachPosts, h]
  · intro j k h0
    rw [postsLoop_counter, h0, List.length_take]
    simp
  · intro j
    rw [postsLoop_acc]
    simp
  · intro hne
    simp only [_run_phase2]
    rw [if_neg (by simpa using hne)]

/-- Witness for C7: a failing posts call keeps the profile with empty
    posts; the counter reads 1 after one attempt; the accepted selection
    runs through to `complete`. -/
theorem phase2_posts_partial_failure_witness :
    (attachPosts failPostsEnv { name := "A" } = { ({ name := "A" } : Profile) with posts := [] }) ∧
    ((((selectedProfiles ["u"] jobAwaiting).take 1).foldl (postsStep failPostsEnv)
        (({} : Job), [])).1.posts_scraped = min 1 (selectedProfiles ["u"] jobAwaiting).length) ∧
    ((_run_phase2 failPostsEnv ["u"] jobAwaiting).1 =
      [Phase.scraping_posts, Phase.analyzing, Phase.complete]) :=
  ⟨(phase2_posts_partial_failure failPostsEnv [] ({} : Job)).1 { name := "A" } "posts boom" rfl,
   (phase2_posts_partial_failure failPostsEnv ["u"] jobAwaiting).2.1 ({} : Job) 1 rfl,
   (phase2_posts_partial_failure failPostsEnv ["u"] jobAwaiting).2.2.2 (by decide)⟩

/-- C8: an `analyze_profile` failure substitutes exactly the fixed degraded
    record — score 0, activity "Unknown", empty topic/interest lists, a
    reasoning field carrying the error text — and the profile is still
    appended with the counter advancing; a single failure never aborts the
    phase for the remaining items. -/
theorem phase2_analysis_degraded (env : Phase2Env) (selected_urls : List String) (job : Job) :
    (∀ p msg, env.analyze_profile p = .error msg →
      attachAnalysis env p = { p with analysis := some (degradedAnalysis msg) }) ∧
    (∀ msg, (degradedAnalysis msg).relevance_score = 0 ∧
      (degradedAnalysis msg).activity_level = "Unknown" ∧
      (degradedAnalysis msg).key_topics = [] ∧
      (degradedAnalysis msg).areas_of_interest = [] ∧
      (degradedAnalysis msg).reasoning = "Error: " ++ msg) ∧
    (∀ (j : Job) (withPosts : List Profile), j.analyzed_profiles = [] →
      (withPosts.foldl (analyzeStep env) j).analyzed_profiles =
        withPosts.map (attachAnalysis env)) ∧
    (∀ (j : Job) (withPosts : List Profile) (k : Nat), j.analyzed_count = 0 →
      ((withPosts.take k).foldl (analyzeStep env) j).analyzed_count =
        min k withPosts.length) ∧
    (selectedProfiles selected_urls job ≠ [] →
      (_run_phase2 env selected_urls job).2.phase = Phase.complete ∧
      (_run_phase2 env selected_urls job).2.analyzed_profiles.length =
        (selectedProfiles selected_urls job).length) := by
  refine ⟨?_, ?_, ?_, ?_, ?_⟩
  · intro p msg h
    simp [attachAnalysis, h]
  · intro msg
    exact ⟨rfl, rfl, rfl, rfl, rfl⟩
  · intro j withPosts h0
    rw [analyzeLoop_profiles, h0]
    simp
  · intro j withPosts k h0
    rw [analyzeLoop_counter, h0, List.length_take]
    simp
  · intro hne
    simp only [_run_phase2]
    rw [if_neg (by simpa using hne)]
    refine ⟨rfl, ?_⟩
    simp only []
    rw [(sortByScoreDesc_perm _).length_eq]
    rw [analyzeLoop_profiles, postsLoop_acc]
    simp

/-- Witness for C8: the failing analysis call yields the degraded record
    and both loop facts hold on a one-element list. -/
theorem phase2_analysis_degraded_witness :
    (attachAnalysis failAnalyzeEnv { name := "A" } =
      { ({ name := "A" } : Profile) with analysis := some (degradedAnalysis "llm boom") }) ∧
    (([({ name := "A" } : Profile)].foldl (analyzeStep failAnalyzeEnv) ({} : Job)).analyzed_profiles =
      [({ name := "A" } : Profile)].map (attachAnalysis failAnalyzeEnv)) ∧
    ((([({ name := "A" } : Profile)].take 1).foldl (analyzeStep failAnalyzeEnv)
        ({} : Job)).analyzed_count = min 1 [({ name := "A" } : Profile)].length) ∧
    ((_run_phase2 failAnalyzeEnv ["u"] jobAwaiting).2.phase = Phase.complete) :=
  ⟨(phase2_analysis_degraded failAnalyzeEnv [] ({} : Job)).1 { name := "A" } "llm boom" rfl,
   (phase2_analysis_degraded failAnalyzeEnv [] ({} : Job)).2.2.1 ({} : Job)
      [{ name := "A" }] rfl,
   (phase2_analysis_degraded failAnalyzeEnv [] ({} : Job)).2.2.2.1 ({} : Job)
      [{ name := "A" }] 1 rfl,
   ((phase2_analysis_degraded failAnalyzeEnv ["u"] jobAwaiting).2.2.2.2 (by decide)).1⟩

/-- C9: when analyzing completes, `analyzed_profiles` is the stable
    descending sort of the encounter-order collection: sorted descending by
    relevance score, a permutation of the input, equal scores in original
    encounter order; in particular encounter-order scores [50, 80, 50] sort
    to [80, first 50, second 50]. -/
theorem phase2_sort_stable (env : Phase2Env) (selected_urls : List String) (job : Job) :
    (∀ l : List Profile, (sortByScoreDesc l).Pairwise
      (fun a b => relevanceScore b ≤ relevanceScore a)) ∧
    (∀ l : List Profile, (sortByScoreDesc l).Perm l) ∧
    (∀ (l : List Profile) (s : Int),
      (sortByScoreDesc l).filter (fun p => relevanceScore p == s) =
        l.filter (fun p => relevanceScore p == s)) ∧
    (selectedProfiles selected_urls job ≠ [] →
      (_run_phase2 env selected_urls job).2.analyzed_profiles =
        sortByScoreDesc ((selectedProfiles selected_urls job).map
          (fun p => attachAnalysis env (attachPosts env p)))) ∧
    (sortByScoreDesc [scoreProfile "A" 50, scoreProfile "B" 80, scoreProfile "C" 50] =
      [scoreProfile "B" 80, scoreProfile "A" 50, scoreProfile "C" 50]) := by
  refine ⟨sortByScoreDesc_sorted, sortByScoreDesc_perm, sortByScoreDesc_filter, ?_, by decide⟩
  intro hne
  simp only [_run_phase2]
  rw [if_neg (by simpa using hne)]
  simp only []
  rw [analyzeLoop_profiles, postsLoop_acc]
  simp only [List.nil_append, List.map_map]
  rfl

/-- Witness for C9 at a concrete accepted selection. -/
theorem phase2_sort_stable_witness :
    (_run_phase2 trivialEnv ["u"] jobAwaiting).2.analyzed_profiles =
      sortByScoreDesc ((selectedProfiles ["u"] jobAwaiting).map
        (fun p => attachAnalysis trivialEnv (attachPosts trivialEnv p))) :=
  (phase2_sort_stable trivialEnv ["u"] jobAwaiting).2.2.2.1 (by decide)

/-- `phaseTrace` without a selection submission. -/
theorem phaseTrace_none (q : String) (mi : Int) (outcome : ScrapeOutcome) :
    phaseTrace q mi outcome Option.none =
      Phase.starting :: (_run_phase1 outcome (initJob q mi)).1 := by
  simp [phaseTrace]

/-- `phaseTrace` with a submitted selection, expanded. -/
theorem phaseTrace_some (q : String) (mi : Int) (outcome : ScrapeOutcome)
    (urls : List String) (env : Phase2Env) :
    phaseTrace q mi outcome (Option.some (urls, env)) =
      Phase.starting :: (_run_phase1 outcome (initJob q mi)).1 ++
        (match submitSelection env urls (_run_phase1 outcome (initJob q mi)).2 with
         | Option.none => []
         | Option.some r2 => r2.1) := rfl

/-- `phaseTrace` when the submitted selection is rejected. -/
theorem phaseTrace_some_rejected (q : String) (mi : Int) (outcome : ScrapeOutcome)
    (urls : List String) (env : Phase2Env)
    (hsub : submitSelection env urls (_run_phase1 outcome (initJob q mi)).2 = none) :
    phaseTrace q mi outcome (Option.some (urls, env)) =
      Phase.starting :: (_run_phase1 outcome (initJob q mi)).1 := by
  rw [phaseTrace_some, hsub]
  simp

/-- `phaseTrace` when the submitted selection is accepted. -/
theorem phaseTrace_some_accepted (q : String) (mi : Int) (outcome : ScrapeOutcome)
    (urls : List String) (env : Phase2Env) (r2 : List Phase × Job)
    (hsub : submitSelection env urls (_run_phase1 outcome (initJob q mi)).2 = some r2) :
    phaseTrace q mi outcome (Option.some (urls, env)) =
      Phase.starting :: (_run_phase1 outcome (initJob q mi)).1 ++ r2.1 := by
  rw [phaseTrace_some, hsub]

/-- Phase-1 writes and final phase when the filtered set is empty. -/
theorem _run_phase1_ok_empty (raw : List Profile) (j : Job)
    (hf : (filter_profiles raw j.search_params_query).isEmpty = true) :
    (_run_phase1 (.ok raw) j).1 = [Phase.scraping, Phase.filtering, Phase.error] ∧
    (_run_phase1 (.ok raw) j).2.phase = Phase.error := by
  constructor
  · simp only [_run_phase1, hf, if_true]
  · simp only [_run_phase1, hf, if_true]

/-- Phase-1 writes and final phase when the filtered set is non-empty. -/
theorem _run_phase1_ok_nonempty (raw : List Profile) (j : Job)
    (hf : (filter_profiles raw j.search_params_query).isEmpty = false) :
    (_run_phase1 (.ok raw) j).1 = [Phase.scraping, Phase.filtering, Phase.awaiting_selection] ∧
    (_run_phase1 (.ok raw) j).2.phase = Phase.awaiting_selection := by
  constructor
  · simp only [_run_phase1, hf, Bool.false_eq_true, if_false]
  · simp only [_run_phase1, hf, Bool.false_eq_true, if_false]

/-- A selection submitted to a job that is not awaiting selection is
    rejected. -/
theorem submitSelection_not_awaiting (env : Phase2Env) (urls : List String) (j : Job)
    (h : j.phase ≠ Phase.awaiting_selection) :
    submitSelection env urls j = none := by
  unfold submitSelection
  rw [if_pos (by simpa [bne_iff_ne] using h)]

/-- An empty selection is rejected even while awaiting. -/
theorem submitSelection_empty (env : Phase2Env) (urls : List String) (j : Job)
    (hu : urls.isEmpty = true) :
    submitSelection env urls j = none := by
  unfold submitSelection
  split
  · rfl
  · simp [hu]

/-- A non-empty selection on an awaiting job starts phase 2 on the capped
    URL list. -/
theorem submitSelection_accepted (env : Phase2Env) (urls : List String) (j : Job)
    (h : j.phase = Phase.awaiting_selection) (hu : urls.isEmpty = false) :
    submitSelection env urls j = some (_run_phase2 env (urls.take 25) j) := by
  unfold submitSelection
  rw [if_neg (by simp [h]), if_neg (by simp [hu])]

/-- Phase-2 writes when no submitted URL matches a stored profile. -/
theorem _run_phase2_noMatch (env : Phase2Env) (urls : List String) (j : Job)
    (hs : (selectedProfiles urls j).isEmpty = true) :
    (_run_phase2 env urls j).1 = [Phase.error] := by
  simp only [_run_phase2, hs, if_true]

/-- Phase-2 writes when at least one submitted URL matches. -/
theorem _run_phase2_match (env : Phase2Env) (urls : List String) (j : Job)
    (hs : (selectedProfiles urls j).isEmpty = false) :
    (_run_phase2 env urls j).1 = [Phase.scraping_posts, Phase.analyzing, Phase.complete] := by
  simp only [_run_phase2, hs, Bool.false_eq_true, if_false]

/-- Every execution produces one of exactly five phase traces. -/
theorem phaseTrace_cases (q : String) (mi : Int) (outcome : ScrapeOutcome)
    (sel : Option (List String × Phase2Env)) :
    phaseTrace q mi outcome sel = [Phase.starting, Phase.scraping, Phase.error] ∨
    phaseTrace q mi outcome sel =
      [Phase.starting, Phase.scraping, Phase.filtering, Phase.error] ∨
    phaseTrace q mi outcome sel =
      [Phase.starting, Phase.scraping, Phase.filtering, Phase.awaiting_selection] ∨
    phaseTrace q mi outcome sel =
      [Phase.starting, Phase.scraping, Phase.filtering, Phase.awaiting_selection,
       Phase.error] ∨
    phaseTrace q mi outcome sel =
      [Phase.starting, Phase.scraping, Phase.filtering, Phase.awaiting_selection,
       Phase.scraping_posts, Phase.analyzing, Phase.complete] := by
  cases outcome with
  | fail msg =>
    left
    cases sel with
    | none => rfl
    | some se =>
      obtain ⟨urls, env⟩ := se
      rfl
  | ok raw =>
    by_cases hf : (filter_profiles raw (initJob q mi).search_params_query).isEmpty = true
    · right; left
      obtain ⟨h1, h2⟩ := _run_phase1_ok_empty raw (initJob q mi) hf
      cases sel with
      | none => rw [phaseTrace_none, h1]
      | some se =>
        obtain ⟨urls, env⟩ := se
        rw [phaseTrace_some_rejected q mi _ urls env
            (submitSelection_not_awaiting env urls _ (by rw [h2]; intro hc; exact nomatch hc)),
          h1]
    · have hf2 : (filter_profiles raw (initJob q mi).search_params_query).isEmpty = false := by
        simpa using hf
      obtain ⟨h1, h2⟩ := _run_phase1_ok_nonempty raw (initJob q mi) hf2
      cases sel with
      | none =>
        right; right; left
        rw [phaseTrace_none, h1]
      | some se =>
        obtain ⟨urls, env⟩ := se
        by_cases hu : urls.isEmpty = true
        · right; right; left
          rw [phaseTrace_some_rejected q mi _ urls env (submitSelection_empty env urls _ hu), h1]
        · have hu2 : urls.isEmpty = false := by simpa using hu
          rw [phaseTrace_some_accepted q mi _ urls env _
              (submitSelection_accepted env urls _ h2 hu2), h1]
          by_cases hs : (selectedProfiles (urls.take 25)
              (_run_phase1 (ScrapeOutcome.ok raw) (initJob q mi)).2).isEmpty = true
          · right; right; right; left
            rw [_run_phase2_noMatch env _ _ hs]
            rfl
          · right; right; right; right
            rw [_run_phase2_match env _ _ (by simpa using hs)]
            rfl

/-- A trace that performs post-scraping (or analysis) never contains
    `error`. -/
theorem phaseTrace_posts_no_error (q : String) (mi : Int) (outcome : ScrapeOutcome)
    (sel : Option (List String × Phase2Env)) :
    (Phase.scraping_posts ∈ phaseTrace q mi outcome sel ∨
     Phase.analyzing ∈ phaseTrace q mi outcome sel) →
    Phase.error ∉ phaseTrace q mi outcome sel := by
  rcases phaseTrace_cases q mi outcome sel with h | h | h | h | h <;> rw [h] <;> decide

/-- No execution reaches `error` from `scraping_posts`. -/
theorem not_errorReachableFrom_scraping_posts :
    ¬ ErrorReachableFrom Phase.scraping_posts := by
  rintro ⟨q, mi, outcome, sel, i, j, _, hi, hj⟩
  exact phaseTrace_posts_no_error q mi outcome sel (Or.inl (List.getElem?_mem hi))
    (List.getElem?_mem hj)

/-- No execution reaches `error` from `analyzing`. -/
theorem not_errorReachableFrom_analyzing :
    ¬ ErrorReachableFrom Phase.analyzing := by
  rintro ⟨q, mi, outcome, sel, i, j, _, hi, hj⟩
  exact phaseTrace_posts_no_error q mi outcome sel (Or.inr (List.getElem?_mem hi))
    (List.getElem?_mem hj)

/-- Counterexample for C1 as stated: `error` is not reachable from every
    non-terminal phase — from the non-terminal phase `scraping_posts` no
    execution of the orchestrator ever reaches `error` (per-item failures
    during post scraping and analysis are absorbed, and `_run_phase2` has
    no error transition after its selection check). -/
theorem phase_error_not_reachable_from_all :
    ¬ (∀ p : Phase, p ≠ Phase.complete → p ≠ Phase.error → ErrorReachableFrom p) :=
  fun h => not_errorReachableFrom_scraping_posts
    (h Phase.scraping_posts (by decide) (by decide))

/-- C1 (amended): every phase trace is strictly increasing in pipeline
    order — a subsequence of `starting, scraping, filtering,
    awaiting_selection, scraping_posts, analyzing, complete` once `error`
    is removed, never rewinding — and `error`/`complete` occur only as the
    final write (absorbing).  `error` is reachable from `starting`,
    `scraping`, `filtering` and `awaiting_selection`, but not from
    `scraping_posts` or `analyzing`. -/
theorem phase_machine_spec :
    (∀ (q : String) (mi : Int) (outcome : ScrapeOutcome)
        (sel : Option (List String × Phase2Env)),
      List.Chain' (fun a b => phaseIdx a < phaseIdx b) (phaseTrace q mi outcome sel) ∧
      List.Sublist ((phaseTrace q mi outcome sel).filter (fun p => p != Phase.error))
        canonicalPhases ∧
      (phaseTrace q mi outcome sel).dropLast.all
        (fun p => p != Phase.error && p != Phase.complete) = true) ∧
    ErrorReachableFrom Phase.starting ∧
    ErrorReachableFrom Phase.scraping ∧
    ErrorReachableFrom Phase.filtering ∧
    ErrorReachableFrom Phase.awaiting_selection ∧
    ¬ ErrorReachableFrom Phase.scraping_posts ∧
    ¬ ErrorReachableFrom Phase.analyzing := by
  refine ⟨?_, ?_, ?_, ?_, ?_,
    not_errorReachableFrom_scraping_posts, not_errorReachableFrom_analyzing⟩
  · intro q mi outcome sel
    rcases phaseTrace_cases q mi outcome sel with h | h | h | h | h <;> rw [h] <;>
      exact ⟨by simp [phaseIdx], by decide, by decide⟩
  · exact ⟨"x", 50, .fail "m", none, 0, 2, by decide, by decide, by decide⟩
  · exact ⟨"x", 50, .fail "m", none, 1, 2, by decide, by decide, by decide⟩
  · exact ⟨"x", 50, .ok [], none, 2, 3, by decide, by decide, by decide⟩
  · exact ⟨"x", 50, .ok [{ name := "A", linkedin_url := "u" }],
      some (["z"], trivialEnv), 3, 4, by decide, by decide, by decide⟩

/- ─────────────── C4: normalizer totality machinery ─────────────── -/

/-- `jGet` on a dict value always succeeds. -/
theorem jGet_obj_isOk (o : JObj) (k : String) (d : JVal) :
    (jGet (JVal.obj o) k d).isOk = true := rfl

/-- A string-or-falsy disjunct splits. -/
theorem strOrFalsy_cases (v : JVal) (h : strOrFalsy v = true) :
    (∃ s, v = JVal.str s) ∨ truthy v = false := by
  unfold strOrFalsy at h
  rw [Bool.or_eq_true] at h
  rcases h with h | h
  · cases v <;> simp [JVal.isStrB] at h ⊢
  · right
    simpa using h

/-- `x or y` of two string-or-falsy values is string-or-falsy. -/
theorem strOrFalsy_pyOr (a b : JVal) (ha : strOrFalsy a = true)
    (hb : strOrFalsy b = true) : strOrFalsy (pyOr a b) = true := by
  unfold pyOr
  split <;> assumption

/-- `x or ""` of a string-or-falsy value is a string. -/
theorem pyOr_emptyStr_isStr (x : JVal) (hx : strOrFalsy x = true) :
    ∃ s, pyOr x (JVal.str "") = JVal.str s := by
  unfold pyOr
  split
  · rename_i ht
    rcases strOrFalsy_cases x hx with ⟨s, rfl⟩ | hf
    · exact ⟨s, rfl⟩
    · rw [ht] at hf
      exact absurd hf (by simp)
  · exact ⟨"", rfl⟩

/-- `d or {}` of a dict-or-falsy value is a dict. -/
theorem pyOr_emptyObj_isObj (x : JVal) (hx : dateOk x = true) :
    ∃ o, pyOr x (JVal.obj []) = JVal.obj o := by
  unfold pyOr
  split
  · rename_i ht
    unfold dateOk at hx
    rw [Bool.or_eq_true] at hx
    rcases hx with h | h
    · cases x <;> simp [JVal.isObjB] at h ⊢
    · rw [ht] at h
      exact absurd h (by simp)
  · exact ⟨[], rfl⟩

/-- `mapExcept` succeeds and its outputs satisfy `P` when every element
    maps to a success satisfying `P`. -/
theorem mapExcept_ok_forall {α β : Type} (f : α → Except String β) (P : β → Prop)
    (l : List α) (h : ∀ x ∈ l, ∃ b, f x = Except.ok b ∧ P b) :
    ∃ bs, mapExcept f l = Except.ok bs ∧ ∀ b ∈ bs, P b := by
  induction l with
  | nil => exact ⟨[], rfl, by simp⟩
  | cons a as ih =>
    obtain ⟨b, hb, hPb⟩ := h a (by simp)
    obtain ⟨bs, hbs, hPbs⟩ := ih (fun x hx => h x (by simp [hx]))
    refine ⟨b :: bs, ?_, ?_⟩
    · simp only [mapExcept, hb, hbs]
      rfl
    · intro y hy
      rcases List.mem_cons.mp hy with rfl | hy
      · exact hPb
      · exact hPbs y hy

/-- `mapExcept` succeeds when every element maps to a success. -/
theorem mapExcept_isOk {α β : Type} (f : α → Except String β) (l : List α)
    (h : ∀ x ∈ l, (f x).isOk = true) : (mapExcept f l).isOk = true := by
  have h2 : ∀ x ∈ l, ∃ b, f x = Except.ok b ∧ True := by
    intro x hx
    have := h x hx
    cases hfx : f x with
    | error e => rw [hfx] at this; exact absurd this (by simp [Except.isOk, Except.toBool])
    | ok b => exact ⟨b, rfl, trivial⟩
  obtain ⟨bs, hbs, _⟩ := mapExcept_ok_forall f (fun _ => True) l h2
  rw [hbs]
  rfl

/-- `join` succeeds on a list of strings. -/
theorem joinStrs_ok (sep : String) (l : List JVal)
    (h : ∀ v ∈ l, v.isStrB = true) :
    ∃ s, joinStrs sep l = Except.ok s := by
  have h2 : ∀ v ∈ l, ∃ b, joinCheck v = Except.ok b ∧ True := by
    intro v hv
    have := h v hv
    cases v <;> simp [JVal.isStrB, joinCheck] at this ⊢
  obtain ⟨bs, hbs, _⟩ := mapExcept_ok_forall joinCheck (fun _ => True) l h2
  refine ⟨String.intercalate sep bs, ?_⟩
  simp only [joinStrs, hbs]
  rfl

/-- `jGet` on a dict reduces to the pure lookup. -/
theorem jGet_obj_eq (o : JObj) (k : String) (d : JVal) :
    jGet (JVal.obj o) k d = Except.ok (objGet o k d) := rfl

/-- Bind on a succeeded `Except` applies the continuation. -/
theorem ok_bind {α β : Type} (a : α) (f : α → Except String β) :
    (Except.ok a >>= f) = f a := rfl

/-- Bind on `pure` applies the continuation. -/
theorem pureE_bind {α β : Type} (a : α) (f : α → Except String β) :
    ((pure a : Except String α) >>= f) = f a := rfl

/-- A well-shaped optional date field is either absent/falsy or a dict,
    also under the `{}` default the code fetches with. -/
theorem dateOk_fetch (o : JObj) (k : String)
    (h : dateOk (objGet o k JVal.null) = true) :
    truthy (objGet o k (JVal.obj [])) = false ∨
      ∃ o2, objGet o k (JVal.obj []) = JVal.obj o2 := by
  cases hl : lookupKey o k with
  | none =>
    left
    simp [objGet, hl, truthy]
  | some v =>
    have hv : objGet o k JVal.null = v := by simp [objGet, hl]
    rw [hv] at h
    unfold dateOk at h
    rw [Bool.or_eq_true] at h
    have hv2 : objGet o k (JVal.obj []) = v := by simp [objGet, hl]
    rw [hv2]
    rcases h with h | h
    · right
      cases v <;> simp [JVal.isObjB] at h ⊢
    · left
      simpa using h

/-- The conjunction inside `expEntryOk` on a dict entry. -/
theorem expEntryOk_obj (o : JObj) (h : expEntryOk (JVal.obj o) = true) :
    dateOk (objGet o "startDate" JVal.null) = true ∧
    dateOk (objGet o "endDate" JVal.null) = true ∧
    (!truthy (objGet o "skills" JVal.null) ||
      (match objGet o "skills" JVal.null with
       | JVal.arr l => l.all JVal.isStrB
       | _ => false)) = true ∧
    strOrFalsy (objGet o "description" JVal.null) = true := by
  unfold expEntryOk at h
  rw [Bool.and_eq_true, Bool.and_eq_true, Bool.and_eq_true] at h
  exact ⟨h.1.1.1, h.1.1.2, h.1.2, h.2⟩

/-- A well-shaped entry is a dict. -/
theorem expEntryOk_isObj (e : JVal) (h : expEntryOk e = true) :
    ∃ o, e = JVal.obj o := by
  cases e <;> simp [expEntryOk] at h ⊢

/-- The current-position scan over well-shaped experience entries never
    raises. -/
theorem currentFromExperience_ok (l : List JVal)
    (h : ∀ e ∈ l, expEntryOk e = true) :
    (currentFromExperience l).isOk = true := by
  induction l with
  | nil => rfl
  | cons exp rest ih =>
    have hrest : (currentFromExperience rest).isOk = true :=
      ih (fun e he => h e (by simp [he]))
    obtain ⟨o, rfl⟩ := expEntryOk_isObj exp (h exp (by simp))
    obtain ⟨_, hed, _, _⟩ := expEntryOk_obj o (h _ (by simp))
    simp only [currentFromExperience, jGet_obj_eq, ok_bind]
    rcases dateOk_fetch o "endDate" hed with hf | ⟨o2, ho2⟩
    · rw [hf]
      simp only [Bool.false_eq_true, if_false, pureE_bind, Bool.true_eq_false]
      exact hrest
    · rw [ho2]
      by_cases ht : truthy (JVal.obj o2) = true
      · rw [if_pos ht]
        simp only [jGet_obj_eq, ok_bind]
        cases heq : eqStr (objGet o2 "text" (JVal.str "")) "Present" with
        | true =>
          simp only [if_true, pureE_bind, jGet_obj_eq, ok_bind]
          rfl
        | false =>
          simp only [Bool.false_eq_true, if_false, jGet_obj_eq, ok_bind, pureE_bind]
          cases hn : (objGet o2 "year" JVal.null).isNullB with
          | true =>
            simp only [if_true, jGet_obj_eq, ok_bind]
            rfl
          | false =>
            simp only [Bool.false_eq_true, if_false]
            exact hrest
      · rw [if_neg ht]
        simp only [pureE_bind, Bool.false_eq_true, if_false]
        exact hrest

/-- A non-empty list produced by `x or []` means `x` itself was that
    truthy list. -/
theorem pyOr_emptyArr_cons (x : JVal) (e0 : JVal) (es : List JVal)
    (hv : pyOr x (JVal.arr []) = JVal.arr (e0 :: es)) :
    x = JVal.arr (e0 :: es) := by
  unfold pyOr at hv
  split at hv
  · exact hv
  · exact absurd hv (by simp)

/-- Entries of a truthy well-shaped list field are all well-shaped. -/
theorem listFieldOk_entries (entryOk : JVal → Bool) (x : JVal) (e0 : JVal)
    (es : List JVal) (hx : x = JVal.arr (e0 :: es))
    (h : listFieldOk entryOk x = true) :
    ∀ e ∈ e0 :: es, entryOk e = true := by
  subst hx
  unfold listFieldOk at h
  rw [Bool.or_eq_true] at h
  rcases h with h | h
  · simp [truthy] at h
  · intro e he
    have := (by simpa using h : (e0 :: es).all entryOk = true)
    exact List.all_eq_true.mp this e he

/-- The experience fallback branch of `_extract_current_position` never
    raises on a well-shaped record. -/
theorem _extract_position_exp_branch (item : JObj)
    (hexp : listFieldOk expEntryOk (objGet item "experience" JVal.null) = true) :
    ((match pyOr (objGet item "experience" JVal.null) (JVal.arr []) with
      | JVal.arr (e0 :: rest) => do
        match ← currentFromExperience (e0 :: rest) with
        | some cu => pure cu
        | none => do
          let c ← jGet e0 "companyName" (JVal.str "")
          let u ← jGet e0 "companyLinkedinUrl" (JVal.str "")
          pure (c, u)
      | _ => pure (JVal.str "", JVal.str "")) : Except String (JVal × JVal)).isOk
      = true := by
  cases hv : pyOr (objGet item "experience" JVal.null) (JVal.arr []) with
  | arr l =>
    cases l with
    | nil => rfl
    | cons e0 es =>
      have hall := listFieldOk_entries expEntryOk _ e0 es
        (pyOr_emptyArr_cons _ e0 es hv) hexp
      have hcur := currentFromExperience_ok (e0 :: es) hall
      show ((do
        let r ← currentFromExperience (e0 :: es)
        match r with
        | some cu => pure cu
        | none => do
          let c ← jGet e0 "companyName" (JVal.str "")
          let u ← jGet e0 "companyLinkedinUrl" (JVal.str "")
          pure (c, u)) : Except String (JVal × JVal)).isOk = true
      cases hc : currentFromExperience (e0 :: es) with
      | error e =>
        rw [hc] at hcur
        exact absurd hcur (by simp [Except.isOk, Except.toBool])
      | ok v =>
        rw [ok_bind]
        cases v with
        | some cu => rfl
        | none =>
          obtain ⟨o, rfl⟩ := expEntryOk_isObj e0 (hall e0 (by simp))
          simp only [jGet_obj_eq, ok_bind]
          rfl
  | null => rfl
  | bool b => rfl
  | int n => rfl
  | str st => rfl
  | obj oo => rfl

/-- `_extract_current_position` never raises on a well-shaped record. -/
theorem _extract_current_position_isOk (item : JObj)
    (hcp : (match objGet item "currentPosition" JVal.null with
            | JVal.arr (p :: _) => p.isObjB
            | _ => true) = true)
    (hexp : listFieldOk expEntryOk (objGet item "experience" JVal.null) = true) :
    (_extract_current_position item).isOk = true := by
  unfold _extract_current_position
  cases hv : pyOr (objGet item "currentPosition" JVal.null) (JVal.arr []) with
  | arr l =>
    cases l with
    | nil =>
      -- fall through to the experience branch
      exact _extract_position_exp_branch item hexp
    | cons p ps =>
      -- the currentPosition head must be a dict
      have hp : p.isObjB = true := by
        have : pyOr (objGet item "currentPosition" JVal.null) (JVal.arr []) =
            JVal.arr (p :: ps) := hv
        unfold pyOr at this
        split at this
        · rw [this] at hcp
          simpa using hcp
        · exact absurd this (by simp)
      obtain ⟨po, rfl⟩ : ∃ po, p = JVal.obj po := by
        cases p <;> simp [JVal.isObjB] at hp ⊢
      simp only [jGet_obj_eq, ok_bind]
      rfl
  | null => exact _extract_position_exp_branch item hexp
  | bool b => exact _extract_position_exp_branch item hexp
  | int n => exact _extract_position_exp_branch item hexp
  | str st => exact _extract_position_exp_branch item hexp
  | obj oo => exact _extract_position_exp_branch item hexp

/-- `_extract_email` never raises when the two direct email fields are
    strings or falsy (every other branch is total). -/
theorem _extract_email_isOk (item : JObj)
    (h1 : strOrFalsy (objGet item "email" JVal.null) = true)
    (h2 : strOrFalsy (objGet item "Email" JVal.null) = true) :
    (_extract_email item).isOk = true := by
  simp only [_extract_email]
  obtain ⟨s, hs⟩ := pyOr_emptyStr_isStr _ (strOrFalsy_pyOr _ _ h1 h2)
  rw [hs]
  by_cases ht : truthy (JVal.str s) = true
  · rw [if_pos ht]
    rfl
  · rw [if_neg ht]
    cases hm : pyOr (pyOr (objGet item "emails" JVal.null)
        (objGet item "emailAddresses" JVal.null)) (JVal.arr []) with
    | arr l =>
      cases l with
      | nil => rfl
      | cons e0 es => cases e0 <;> rfl
    | null => rfl
    | bool b => rfl
    | int n => rfl
    | str s2 => rfl
    | obj o => rfl

/-- A string-or-falsy name field that tests truthy under the `""` default
    is a string. -/
theorem strOrFalsy_fetch (o : JObj) (k : String)
    (h : strOrFalsy (objGet o k JVal.null) = true)
    (ht : truthy (objGet o k (JVal.str "")) = true) :
    (objGet o k (JVal.str "")).isStrB = true := by
  cases hl : lookupKey o k with
  | none => simp [objGet, hl, JVal.isStrB]
  | some v =>
    have e1 : objGet o k JVal.null = v := by simp [objGet, hl]
    have e2 : objGet o k (JVal.str "") = v := by simp [objGet, hl]
    rw [e1] at h
    rw [e2] at ht ⊢
    rcases strOrFalsy_cases v h with ⟨s, rfl⟩ | hf
    · rfl
    · rw [ht] at hf
      exact absurd hf (by simp)

/-- The skill-name generator never raises over dict entries whose `name`
    values are strings or falsy, and yields only strings. -/
theorem skillNames_ok (l : List JVal)
    (h : ∀ s ∈ l, s.isObjB = true ∧
      strOrFalsy (match s with
        | JVal.obj o => objGet o "name" JVal.null
        | _ => JVal.null) = true) :
    ∃ ns, skillNames l = Except.ok ns ∧ ∀ n ∈ ns, n.isStrB = true := by
  induction l with
  | nil => exact ⟨[], rfl, by simp⟩
  | cons s rest ih =>
    obtain ⟨hobj, hname⟩ := h s (by simp)
    obtain ⟨o, rfl⟩ : ∃ o, s = JVal.obj o := by
      cases s <;> simp [JVal.isObjB] at hobj ⊢
    obtain ⟨ns, hns, hall⟩ := ih (fun x hx => h x (by simp [hx]))
    simp only [skillNames, jGet_obj_eq, ok_bind, hns]
    by_cases htr : truthy (objGet o "name" (JVal.str "")) = true
    · rw [if_pos htr]
      refine ⟨objGet o "name" (JVal.str "") :: ns, rfl, ?_⟩
      intro n hn
      rcases List.mem_cons.mp hn with rfl | hn
      · exact strOrFalsy_fetch o "name" (by simpa using hname) htr
      · exact hall n hn
    · rw [if_neg htr]
      exact ⟨ns, rfl, hall⟩

/-- An if-then-else of two pure results always succeeds. -/
theorem ite_pure_isOk {α : Type} (c : Prop) [Decidable c] (a b : α) :
    (if c then (pure a : Except String α) else pure b).isOk = true := by
  split <;> rfl

/-- `_extract_skills` never raises on a well-shaped skills field. -/
theorem _extract_skills_isOk (item : JObj)
    (h : skillsOk (objGet item "skills" JVal.null) = true) :
    (_extract_skills item).isOk = true := by
  simp only [_extract_skills]
  cases hv : pyOr (objGet item "skills" JVal.null) (JVal.arr []) with
  | arr l =>
    cases l with
    | nil => rfl
    | cons s0 ss =>
      show ((if s0.isObjB = true then do
          let names ← skillNames (s0 :: ss)
          let joined ← joinStrs ", " names
          pure (JVal.str joined)
        else
          pure (JVal.str (String.intercalate ", "
            ((s0 :: ss).map pyStr)))) : Except String JVal).isOk = true
      by_cases hobj : s0.isObjB = true
      · rw [if_pos hobj]
        have hx : objGet item "skills" JVal.null = JVal.arr (s0 :: ss) :=
          pyOr_emptyArr_cons _ _ _ hv
        rw [hx] at h
        unfold skillsOk at h
        rw [Bool.or_eq_true] at h
        rcases h with h | h
        · rw [hobj] at h
          simp at h
        · have hall := List.all_eq_true.mp h
          have h2 : ∀ x ∈ s0 :: ss, x.isObjB = true ∧
              strOrFalsy (match x with
                | JVal.obj o => objGet o "name" JVal.null
                | _ => JVal.null) = true := by
            intro x hsmem
            have := hall x hsmem
            rw [Bool.and_eq_true] at this
            exact this
          obtain ⟨ns, hns, hstr⟩ := skillNames_ok (s0 :: ss) h2
          obtain ⟨js, hjs⟩ := joinStrs_ok ", " ns hstr
          simp only [hns, ok_bind, hjs]
          rfl
      · rw [if_neg hobj]
        rfl
  | null => exact ite_pure_isOk _ _ _
  | bool b => exact ite_pure_isOk _ _ _
  | int n => exact ite_pure_isOk _ _ _
  | str s2 => exact ite_pure_isOk _ _ _
  | obj o => exact ite_pure_isOk _ _ _

/-- `_extract_location` never raises on a well-shaped location field. -/
theorem _extract_location_isOk (item : JObj)
    (h : locationOk (objGet item "location" JVal.null) = true) :
    (_extract_location item).isOk = true := by
  simp only [_extract_location]
  cases hv : pyOr (objGet item "location" JVal.null) (JVal.obj []) with
  | obj o =>
    have hparsed : ∃ po, pyOr (objGet o "parsed" JVal.null) (JVal.obj []) = JVal.obj po := by
      unfold pyOr at hv
      split at hv
      · rw [hv] at h
        have h2 : (pyOr (objGet o "parsed" JVal.null) (JVal.obj [])).isObjB = true := by
          simpa [locationOk] using h
        cases hp : pyOr (objGet o "parsed" JVal.null) (JVal.obj []) <;>
          rw [hp] at h2 <;> simp [JVal.isObjB] at h2 ⊢
      · have ho : o = [] := by
          cases hv
          rfl
        subst ho
        exact ⟨[], rfl⟩
    obtain ⟨po, hpo⟩ := hparsed
    simp only [hpo, jGet_obj_eq, ok_bind]
    rfl
  | str s2 => rfl
  | null => rfl
  | bool b => rfl
  | int n => rfl
  | arr l => rfl

/-- A truthy well-shaped skills value under the `[]` default is a list of
    strings. -/
theorem skillsField_truthy_strings (o : JObj)
    (hsk : (!truthy (objGet o "skills" JVal.null) ||
      (match objGet o "skills" JVal.null with
       | JVal.arr l => l.all JVal.isStrB
       | _ => false)) = true)
    (ht : truthy (pyOr (objGet o "skills" JVal.null) (JVal.arr [])) = true) :
    ∃ l, pyOr (objGet o "skills" JVal.null) (JVal.arr []) = JVal.arr l ∧
      ∀ v ∈ l, v.isStrB = true := by
  have hskt : truthy (objGet o "skills" JVal.null) = true := by
    by_contra hc
    have hz : pyOr (objGet o "skills" JVal.null) (JVal.arr []) = JVal.arr [] := by
      unfold pyOr
      rw [if_neg hc]
    rw [hz] at ht
    simp [truthy] at ht
  have hpy : pyOr (objGet o "skills" JVal.null) (JVal.arr []) =
      objGet o "skills" JVal.null := by
    unfold pyOr
    rw [if_pos hskt]
  have hmatch : (match objGet o "skills" JVal.null with
      | JVal.arr l => l.all JVal.isStrB
      | _ => false) = true := by
    rw [Bool.or_eq_true] at hsk
    rcases hsk with h2 | h2
    · rw [hskt] at h2
      simp at h2
    · exact h2
  cases hv : objGet o "skills" JVal.null with
  | arr l =>
    rw [hv] at hmatch hskt
    refine ⟨l, ?_, List.all_eq_true.mp hmatch⟩
    unfold pyOr
    rw [if_pos hskt]
  | null => rw [hv] at hmatch; simp at hmatch
  | bool b => rw [hv] at hmatch; simp at hmatch
  | int n => rw [hv] at hmatch; simp at hmatch
  | str s2 => rw [hv] at hmatch; simp at hmatch
  | obj o2 => rw [hv] at hmatch; simp at hmatch

/-- One experience entry formats without raising when well-shaped. -/
theorem experienceLine_isOk (e : JVal) (h : expEntryOk e = true) :
    (experienceLine e).isOk = true := by
  obtain ⟨o, rfl⟩ := expEntryOk_isObj e h
  obtain ⟨hsd, hed, hsk, hdesc⟩ := expEntryOk_obj o h
  obtain ⟨o1, e1⟩ := pyOr_emptyObj_isObj _ hsd
  obtain ⟨o2, e2⟩ := pyOr_emptyObj_isObj _ hed
  obtain ⟨ds, e3⟩ := pyOr_emptyStr_isStr _ hdesc
  simp only [experienceLine, jGet_obj_eq, ok_bind, e1, e2, e3]
  by_cases ht : truthy (pyOr (objGet o "skills" JVal.null) (JVal.arr [])) = true
  · obtain ⟨l, hl, hstr⟩ := skillsField_truthy_strings o hsk ht
    obtain ⟨js, hjs⟩ := joinStrs_ok ", " (l.take 6)
      (fun v hv => hstr v (List.take_subset _ _ hv))
    rw [if_pos ht]
    simp only [hl, hjs, ok_bind]
    rfl
  · rw [if_neg ht]
    rfl

/-- The pieces of `eduEntryOk` on a dict entry. -/
theorem eduEntryOk_obj (o : JObj) (h : eduEntryOk (JVal.obj o) = true) :
    (objGet o "schoolName" (JVal.str "")).isStrB = true ∧
    strOrFalsy (objGet o "degree" JVal.null) = true ∧
    strOrFalsy (objGet o "fieldOfStudy" JVal.null) = true := by
  unfold eduEntryOk at h
  rw [Bool.and_eq_true, Bool.and_eq_true] at h
  exact ⟨h.1.1, h.1.2, h.2⟩

/-- A well-shaped education entry is a dict. -/
theorem eduEntryOk_isObj (e : JVal) (h : eduEntryOk e = true) :
    ∃ o, e = JVal.obj o := by
  cases e <;> simp [eduEntryOk] at h ⊢

/-- One education entry formats without raising, into a string. -/
theorem educationLine_isOk (e : JVal) (h : eduEntryOk e = true) :
    ∃ s, educationLine e = Except.ok (JVal.str s) := by
  obtain ⟨o, rfl⟩ := eduEntryOk_isObj e h
  obtain ⟨hschool, hdeg, hfld⟩ := eduEntryOk_obj o h
  have hq : ∀ v ∈ ((if truthy (objGet o "degree" (JVal.str "")) = true then
        [objGet o "degree" (JVal.str "")] else []) ++
      (if truthy (objGet o "fieldOfStudy" (JVal.str "")) = true then
        [objGet o "fieldOfStudy" (JVal.str "")] else [])), v.isStrB = true := by
    intro v hv
    rcases List.mem_append.mp hv with hv | hv
    · by_cases hd : truthy (objGet o "degree" (JVal.str "")) = true
      · rw [if_pos hd] at hv
        rcases List.mem_singleton.mp hv with rfl
        exact strOrFalsy_fetch o "degree" hdeg hd
      · rw [if_neg hd] at hv
        exact absurd hv (by simp)
    · by_cases hd : truthy (objGet o "fieldOfStudy" (JVal.str "")) = true
      · rw [if_pos hd] at hv
        rcases List.mem_singleton.mp hv with rfl
        exact strOrFalsy_fetch o "fieldOfStudy" hfld hd
      · rw [if_neg hd] at hv
        exact absurd hv (by simp)
  obtain ⟨qs, hqs⟩ := joinStrs_ok ", " _ hq
  obtain ⟨ss, hss⟩ : ∃ ss, objGet o "schoolName" (JVal.str "") = JVal.str ss := by
    cases hv : objGet o "schoolName" (JVal.str "") <;>
      rw [hv] at hschool <;> simp [JVal.isStrB] at hschool ⊢
  simp only [educationLine, jGet_obj_eq, ok_bind, hqs, hss]
  by_cases hq2 : (qs != "") = true
  · rw [if_pos hq2]
    by_cases hper : truthy (objGet o "period" (JVal.str "")) = true
    · rw [if_pos hper]
      exact ⟨_, rfl⟩
    · rw [if_neg hper]
      exact ⟨_, rfl⟩
  · rw [if_neg hq2]
    by_cases hper : truthy (objGet o "period" (JVal.str "")) = true
    · rw [if_pos hper]
      exact ⟨_, rfl⟩
    · rw [if_neg hper]
      exact ⟨_, rfl⟩

/-- A well-shaped certification entry is a dict with a string title. -/
theorem certEntryOk_parts (e : JVal) (h : certEntryOk e = true) :
    ∃ o, e = JVal.obj o ∧ (objGet o "title" (JVal.str "")).isStrB = true := by
  cases e <;> simp [certEntryOk] at h ⊢
  exact h

/-- One certification entry formats without raising. -/
theorem certificationLine_isOk (e : JVal) (h : certEntryOk e = true) :
    (certificationLine e).isOk = true := by
  obtain ⟨o, rfl, htitle⟩ := certEntryOk_parts e h
  have hq : ∀ v ∈ ([objGet o "title" (JVal.str "")] ++
      (if truthy (objGet o "issuedBy" (JVal.str "")) = true then
        [JVal.str ("by " ++ pyStr (objGet o "issuedBy" (JVal.str "")))] else []) ++
      (if truthy (objGet o "issuedAt" (JVal.str "")) = true then
        [JVal.str ("(" ++ pyStr (objGet o "issuedAt" (JVal.str "")) ++ ")")] else [])),
      v.isStrB = true := by
    intro v hv
    rcases List.mem_append.mp hv with hv | hv
    · rcases List.mem_append.mp hv with hv | hv
      · rcases List.mem_singleton.mp hv with rfl
        exact htitle
      · split at hv
        · rcases List.mem_singleton.mp hv with rfl
          rfl
        · exact absurd hv (by simp)
    · split at hv
      · rcases List.mem_singleton.mp hv with rfl
        rfl
      · exact absurd hv (by simp)
  obtain ⟨cs, hcs⟩ := joinStrs_ok " " _ hq
  simp only [certificationLine, jGet_obj_eq, ok_bind, hcs]
  rfl

/-- A truthy well-shaped list field under the `[]` default is that list,
    with all entries well-shaped. -/
theorem listFieldOk_truthy (entryOk : JVal → Bool) (v : JVal)
    (h : listFieldOk entryOk v = true)
    (ht : truthy (pyOr v (JVal.arr [])) = true) :
    ∃ l, pyOr v (JVal.arr []) = JVal.arr l ∧ ∀ e ∈ l, entryOk e = true := by
  have hvt : truthy v = true := by
    by_contra hc
    have hz : pyOr v (JVal.arr []) = JVal.arr [] := by
      unfold pyOr
      rw [if_neg hc]
    rw [hz] at ht
    simp [truthy] at ht
  have hpy : pyOr v (JVal.arr []) = v := by
    unfold pyOr
    rw [if_pos hvt]
  unfold listFieldOk at h
  rw [Bool.or_eq_true] at h
  rcases h with h | h
  · rw [hvt] at h
    simp at h
  · cases v with
    | arr l => exact ⟨l, hpy, List.all_eq_true.mp h⟩
    | null => simp at h
    | bool b => simp at h
    | int n => simp at h
    | str s2 => simp at h
    | obj o => simp at h

/-- `_extract_experience_summary` never raises on a well-shaped record. -/
theorem _extract_experience_summary_isOk (item : JObj)
    (h : listFieldOk expEntryOk (objGet item "experience" JVal.null) = true) :
    (_extract_experience_summary item).isOk = true := by
  simp only [_extract_experience_summary]
  by_cases ht : truthy (pyOr (objGet item "experience" JVal.null) (JVal.arr [])) = true
  · rw [if_neg (by simp [ht])]
    obtain ⟨l, hl, hall⟩ := listFieldOk_truthy expEntryOk _ h ht
    have hmap := mapExcept_isOk experienceLine (l.take 6)
      (fun e he => experienceLine_isOk e (hall e (List.take_subset _ _ he)))
    cases hm : mapExcept experienceLine (l.take 6) with
    | error er =>
      rw [hm] at hmap
      simp [Except.isOk, Except.toBool] at hmap
    | ok lines =>
      simp only [hl, hm, ok_bind]
      rfl
  · rw [if_pos (by simpa using ht)]
    rfl

/-- `_extract_education_summary` never raises on a well-shaped record. -/
theorem _extract_education_summary_isOk (item : JObj)
    (h : listFieldOk eduEntryOk (objGet item "education" JVal.null) = true) :
    (_extract_education_summary item).isOk = true := by
  simp only [_extract_education_summary]
  by_cases ht : truthy (pyOr (objGet item "education" JVal.null) (JVal.arr [])) = true
  · rw [if_neg (by simp [ht])]
    obtain ⟨l, hl, hall⟩ := listFieldOk_truthy eduEntryOk _ h ht
    obtain ⟨lines, hm, hstr⟩ := mapExcept_ok_forall educationLine
      (fun v => v.isStrB = true) (l.take 4)
      (fun e he => by
        obtain ⟨s2, hs2⟩ := educationLine_isOk e (hall e (List.take_subset _ _ he))
        exact ⟨JVal.str s2, hs2, rfl⟩)
    obtain ⟨js, hjs⟩ := joinStrs_ok "\n" lines hstr
    simp only [hl, hm, ok_bind, hjs]
    rfl
  · rw [if_pos (by simpa using ht)]
    rfl

/-- `_extract_certifications_summary` never raises on a well-shaped
    record. -/
theorem _extract_certifications_summary_isOk (item : JObj)
    (h : listFieldOk certEntryOk (objGet item "certifications" JVal.null) = true) :
    (_extract_certifications_summary item).isOk = true := by
  simp only [_extract_certifications_summary]
  by_cases ht : truthy (pyOr (objGet item "certifications" JVal.null) (JVal.arr [])) = true
  · rw [if_neg (by simp [ht])]
    obtain ⟨l, hl, hall⟩ := listFieldOk_truthy certEntryOk _ h ht
    have hmap := mapExcept_isOk certificationLine (l.take 6)
      (fun e he => certificationLine_isOk e (hall e (List.take_subset _ _ he)))
    cases hm : mapExcept certificationLine (l.take 6) with
    | error er =>
      rw [hm] at hmap
      simp [Except.isOk, Except.toBool] at hmap
    | ok lines =>
      simp only [hl, hm, ok_bind]
      rfl
  · rw [if_pos (by simpa using ht)]
    rfl

/-- Bind preserves success. -/
theorem isOk_bind_of {α β : Type} (e : Except String α) (f : α → Except String β)
    (he : e.isOk = true) (hf : ∀ a, (f a).isOk = true) : (e >>= f).isOk = true := by
  cases e with
  | error err => simp [Except.isOk, Except.toBool] at he
  | ok a =>
    rw [ok_bind]
    exact hf a

/-- The eight components of `wellShapedItem`. -/
theorem wellShapedItem_parts (item : JObj) (h : wellShapedItem item = true) :
    strOrFalsy (objGet item "email" JVal.null) = true ∧
    strOrFalsy (objGet item "Email" JVal.null) = true ∧
    (match objGet item "currentPosition" JVal.null with
     | JVal.arr (p :: _) => p.isObjB
     | _ => true) = true ∧
    listFieldOk expEntryOk (objGet item "experience" JVal.null) = true ∧
    listFieldOk eduEntryOk (objGet item "education" JVal.null) = true ∧
    listFieldOk certEntryOk (objGet item "certifications" JVal.null) = true ∧
    skillsOk (objGet item "skills" JVal.null) = true ∧
    locationOk (objGet item "location" JVal.null) = true := by
  unfold wellShapedItem at h
  rw [Bool.and_eq_true, Bool.and_eq_true, Bool.and_eq_true, Bool.and_eq_true,
    Bool.and_eq_true, Bool.and_eq_true, Bool.and_eq_true] at h
  exact ⟨h.1.1.1.1.1.1.1, h.1.1.1.1.1.1.2, h.1.1.1.1.1.2, h.1.1.1.1.2,
    h.1.1.1.2, h.1.1.2, h.1.2, h.2⟩

/-- `_parse_profile` never raises on a well-shaped record. -/
theorem _parse_profile_isOk (item : JObj) (h : wellShapedItem item = true) :
    (_parse_profile item).isOk = true := by
  obtain ⟨he1, he2, hcp, hexp, hedu, hcert, hsk, hloc⟩ := wellShapedItem_parts item h
  simp only [_parse_profile]
  refine isOk_bind_of _ _ (_extract_current_position_isOk item hcp hexp) (fun position => ?_)
  refine isOk_bind_of _ _ (_extract_location_isOk item hloc) (fun location => ?_)
  refine isOk_bind_of _ _ (_extract_skills_isOk item hsk) (fun skills => ?_)
  refine isOk_bind_of _ _ (_extract_email_isOk item he1 he2) (fun email => ?_)
  refine isOk_bind_of _ _ (_extract_experience_summary_isOk item hexp) (fun exps => ?_)
  refine isOk_bind_of _ _ (_extract_education_summary_isOk item hedu) (fun edus => ?_)
  refine isOk_bind_of _ _ (_extract_certifications_summary_isOk item hcert) (fun certs => ?_)
  rfl

/-- Counterexample for C4 as stated: `_parse_profile` does raise on some
    JSON dictionaries — on `{"experience": [5]}` the current-position scan
    calls `.get` on the integer entry and an `AttributeError` escapes. -/
theorem parse_profile_raises_on_arbitrary_record :
    (_parse_profile [("experience", JVal.arr [JVal.int 5])]).isOk = false := rfl

/-- C4 (amended): `_parse_profile` returns a complete profile record
    without raising for every provider record whose composite fields are
    well-shaped (list fields hold JSON dicts where the code calls `.get`,
    nested date/`parsed` values are dicts when truthy, joined leaf fields
    are strings); in particular a record missing every optional field is
    well-shaped and normalizes to the all-defaults record — empty strings,
    zero connection/follower counts, false boolean flags — rather than
    being dropped or raising. -/
theorem parse_profile_wellShaped_total :
    (∀ item : JObj, wellShapedItem item = true → (_parse_profile item).isOk = true) ∧
    _parse_profile [] = Except.ok defaultParsedProfile ∧
    wellShapedItem [] = true :=
  ⟨_parse_profile_isOk, rfl, rfl⟩

/-- Witness for C4 at a concrete well-shaped record. -/
theorem parse_profile_wellShaped_total_witness :
    (_parse_profile [("firstName", JVal.str "Ada")]).isOk = true :=
  parse_profile_wellShaped_total.1 [("firstName", JVal.str "Ada")] rfl

end LinkedInLead
